import Mathlib

/-!
Verification development for the Football-Robot simulation core
(`src/simulation/main.js` and the multi-robot XML generator).

The JavaScript code is shallowly embedded:
* JS numbers that participate in arithmetic are modelled as `Option ℚ`,
  where `none` stands for NaN (the result of reading an out-of-bounds
  array slot, i.e. `undefined`, propagated through arithmetic) and
  `some q` for an ordinary finite number.
* entries of `model.actuator_ctrlrange` are modelled by `JSNum`, which
  also distinguishes the two infinities, because the code tests them
  with `Number.isFinite`.
* JS arrays are Lean lists; a typed-array store `a[i] = v` is `List.set`
  (both discard out-of-bounds writes).
* the physics engine is an external capability: `simulation.step()` is an
  opaque parameter that may update `qpos`/`qvel` from the current control
  vector but cannot write the `ctrl` array (mirroring the MuJoCo interface).
* XML text is a `List Char`; the regex-based rewrites of the generator are
  modelled by explicit scanners with the same matching semantics.
-/

namespace FootballRobot

/-! ### JS numbers -/

/-- A JS number as it appears in `model.actuator_ctrlrange`: finite,
`Infinity`, `-Infinity` or `NaN`. -/
inductive JSNum where
  | fin (q : ℚ)
  | posInf
  | negInf
  | nan
deriving DecidableEq, Repr

/-- `Number.isFinite`. -/
def JSNum.isFinite : JSNum → Bool
  | .fin _ => true
  | _ => false

/-- NaN-propagating addition on optional rationals (`none` is NaN). -/
def vadd (a b : Option ℚ) : Option ℚ :=
  match a, b with
  | some x, some y => some (x + y)
  | _, _ => none

/-- NaN-propagating subtraction on optional rationals (`none` is NaN). -/
def vsub (a b : Option ℚ) : Option ℚ :=
  match a, b with
  | some x, some y => some (x - y)
  | _, _ => none

/-- NaN-propagating multiplication on optional rationals (`none` is NaN). -/
def vmul (a b : Option ℚ) : Option ℚ :=
  match a, b with
  | some x, some y => some (x * y)
  | _, _ => none

/-- `Math.min` (NaN-propagating, as in JS). -/
def vmin (a b : Option ℚ) : Option ℚ :=
  match a, b with
  | some x, some y => some (min x y)
  | _, _ => none

/-- `Math.max` (NaN-propagating, as in JS). -/
def vmax (a b : Option ℚ) : Option ℚ :=
  match a, b with
  | some x, some y => some (max x y)
  | _, _ => none

/-! ### Decimation (`reload`, main.js lines 333-343) -/

/-- The control period hard-coded in `reload`:
`this.decimation = Math.max(1, Math.round(0.02 / this.timestep))`. -/
def controlPeriod : ℚ := 1 / 50

/-- `Math.max(1, Math.round(0.02 / timestep))`.  Mathlib's `round` is
`⌊x + 1/2⌋`, which is exactly JS `Math.round` (half toward `+∞`). -/
def computeDecimation (timestep : ℚ) : ℤ :=
  max 1 (round (controlPeriod / timestep))

/-! ### Joint mappings and PD parameters (data model) -/

/-- Per-robot address table (`this.robotJointMappings[i]`). -/
structure JointMapping where
  qpos_adr_policy : List ℕ
  qvel_adr_policy : List ℕ
  ctrl_adr_policy : List ℕ
  numActions : ℕ
deriving Repr, DecidableEq

/-- Per-robot PD parameters (`this.robotPolicyParams[i]`); either field may
be absent (`null`), falling back to the global `kpPolicy`/`kdPolicy`. -/
structure PDParams where
  kp : Option (List ℚ)
  kd : Option (List ℚ)
deriving Repr, DecidableEq

/-- The mutable physics state owned by the external physics capability.
`ctrl` entries may be NaN (`none`) after a write of a NaN command. -/
structure SimState where
  qpos : List ℚ
  qvel : List ℚ
  ctrl : List (Option ℚ)
  stepCount : ℕ
deriving Repr, DecidableEq

/-- Reading `array[adr]` from a physics array: `undefined` (NaN in the
subsequent arithmetic) when out of bounds. -/
def readArr (a : List ℚ) (adr : ℕ) : Option ℚ :=
  a[adr]?

/-! ### The PD torque and actuator clamping (main.js lines 658-684) -/

/-- `kp * (target - qpos[qposAdr]) + kd * (0 - qvel[qvelAdr])`. -/
def pdTorque (kp kd target qp qv : Option ℚ) : Option ℚ :=
  vadd (vmul kp (vsub target qp)) (vmul kd (vsub (some 0) qv))

/-- Lines 675-682: clamp `ctrlValue` to `actuator_ctrlrange[2*adr .. 2*adr+1]`
when the range array is present, long enough, both bounds are finite and
`min < max`; otherwise leave it unclamped. -/
def clampIfRange (ctrlRange : Option (List JSNum)) (adr : ℕ) (v : Option ℚ) :
    Option ℚ :=
  match ctrlRange with
  | none => v
  | some cr =>
    if (adr + 1) * 2 ≤ cr.length then
      match cr.getD (adr * 2) JSNum.nan, cr.getD (adr * 2 + 1) JSNum.nan with
      | .fin mn, .fin mx => if mn < mx then vmin (vmax v (some mn)) (some mx) else v
      | _, _ => v
    else v

/-- The clamp written the way the specification states it: the post-clamp
value lies within `[min, max]` exactly when both bounds are finite and
`min < max`, and equals the pre-clamp torque otherwise.  (Spec-side
definition, to be compared with `clampIfRange` from the code.) -/
def clampSpec (mn mx : JSNum) (t : ℚ) : ℚ :=
  match mn, mx with
  | .fin a, .fin b => if a < b then min (max t a) b else t
  | _, _ => t

/-! ### Policy results (main.js lines 550-606)

A policy's `step` either throws or returns a JS value; for the loop's
validation logic only two shapes matter: a numeric array, or a nullish
(falsy, non-array) value such as `null`/`undefined`. -/

/-- The value a policy `step` call resolves to. -/
inductive JSVal where
  | arr (xs : List ℚ)
  | nullish
deriving DecidableEq, Repr

/-- Outcome of one `await policyRunner.step(state)`. -/
inductive StepOutcome where
  | throws
  | ok (v : JSVal)
deriving DecidableEq, Repr

/-- Per-tick context of the scheduler in multi-robot mode: the immutable
tables, the per-robot policy outcomes for this tick, and the external
physics step (which may update `qpos`/`qvel` from the control vector but
never writes `ctrl`). -/
structure LoopCtx where
  mappings : List (Option JointMapping)
  runners : List Bool
  outcomes : List StepOutcome
  robotPolicyParams : List (Option PDParams)
  kpPolicy : Option (List ℚ)
  kdPolicy : Option (List ℚ)
  ctrlRange : Option (List JSNum)
  decimation : ℕ
  jointPositionControl : Bool
  physStep : List ℚ → List ℚ → List (Option ℚ) → List ℚ × List ℚ

/-- Lines 556-579: one robot's inference step.  A missing runner skips the
robot; an exception aborts the whole loop (`.error`); a nullish or empty
result is logged and the robot's target stays unset (`none`). -/
def robotInfer (hasRunner : Bool) (oc : StepOutcome) :
    Except Unit (Option (List ℚ)) :=
  if hasRunner then
    match oc with
    | .throws => .error ()
    | .ok .nullish => .ok none
    | .ok (.arr xs) => if xs.length = 0 then .ok none else .ok (some xs)
  else .ok none

/-- The per-robot inference loop: robots in index order, aborted by the
first exception (the `try` wraps the whole `for` loop). -/
def collectTargetsList : List (Bool × StepOutcome) →
    Except Unit (List (Option (List ℚ)))
  | [] => .ok []
  | (hasR, oc) :: rest =>
    match robotInfer hasR oc with
    | .error e => .error e
    | .ok t =>
      match collectTargetsList rest with
      | .error e => .error e
      | .ok ts => .ok (t :: ts)

/-- Lines 553-594: run inference for every robot with a registered mapping
(`robotIdx < robotJointMappings.length`). -/
def collectTargets (ctx : LoopCtx) : Except Unit (List (Option (List ℚ))) :=
  collectTargetsList ((List.range ctx.mappings.length).map
    (fun r => (ctx.runners.getD r false, ctx.outcomes.getD r .throws)))

/-- Read through an address that may itself be `undefined`
(`mapping.qpos_adr_policy[i]` past the end of the table). -/
def readAt (a : List ℚ) (adr? : Option ℕ) : Option ℚ :=
  adr?.bind (readArr a)

/-- Line 667: `robotParams?.kp ?? this.kpPolicy` (and the same for `kd`). -/
def resolveGainArr (params : Option PDParams) (pick : PDParams → Option (List ℚ))
    (globalArr : Option (List ℚ)) : Option (List ℚ) :=
  (params.bind pick).orElse (fun _ => globalArr)

/-- Line 669: `kpArr ? kpArr[i] : 0.0` — a missing array yields gain `0`,
a present but too-short array yields `undefined` (NaN). -/
def gainAt (arr? : Option (List ℚ)) (i : ℕ) : Option ℚ :=
  match arr? with
  | none => some 0
  | some a => a[i]?

/-- The resolved `kp` array for robot `r` (line 666-667). -/
def robotKpArr (ctx : LoopCtx) (r : ℕ) : Option (List ℚ) :=
  resolveGainArr (ctx.robotPolicyParams.getD r none) PDParams.kp ctx.kpPolicy

/-- The resolved `kd` array for robot `r` (line 666-668). -/
def robotKdArr (ctx : LoopCtx) (r : ℕ) : Option (List ℚ) :=
  resolveGainArr (ctx.robotPolicyParams.getD r none) PDParams.kd ctx.kdPolicy

/-- Lines 658-682: the clamped PD command computed for robot `robotIdx` and
degree-of-freedom index `i`, destined for control address `cAdr`: the PD
torque from the current `qpos`/`qvel` (line 664: an in-range `undefined` or
`null` target entry falls back to `0.0`), clamped against
`actuator_ctrlrange`. -/
def ctrlValueAt (ctx : LoopCtx) (qpos qvel : List ℚ) (m : JointMapping)
    (xs : List ℚ) (robotIdx i cAdr : ℕ) : Option ℚ :=
  clampIfRange ctx.ctrlRange cAdr
    (pdTorque (gainAt (robotKpArr ctx robotIdx) i)
      (gainAt (robotKdArr ctx robotIdx) i)
      (some (xs.getD i 0))
      (readAt qpos (m.qpos_adr_policy[i]?))
      (readAt qvel (m.qvel_adr_policy[i]?)))

/-- Lines 658-684: the body of the per-degree-of-freedom control loop for
one robot in multi-robot mode: store the clamped PD command at the mapped
control address (an `undefined` address makes the typed-array write a
no-op). -/
def ctrlWriteStep (ctx : LoopCtx) (qpos qvel : List ℚ) (m : JointMapping)
    (xs : List ℚ) (robotIdx : ℕ) (ctrl : List (Option ℚ)) (i : ℕ) :
    List (Option ℚ) :=
  match m.ctrl_adr_policy[i]? with
  | none => ctrl
  | some ctrlAdr =>
    ctrl.set ctrlAdr (ctrlValueAt ctx qpos qvel m xs robotIdx i ctrlAdr)

/-- Lines 612-685: control application for robot `robotIdx`: skipped when
the mapping is missing, the action target is missing, or its length differs
from `numActions`; otherwise write every mapped control address. -/
def applyRobotCtrl (ctx : LoopCtx) (qpos qvel : List ℚ)
    (targets : List (Option (List ℚ))) (ctrl : List (Option ℚ))
    (robotIdx : ℕ) : List (Option ℚ) :=
  match ctx.mappings.getD robotIdx none with
  | none => ctrl
  | some m =>
    match targets.getD robotIdx none with
    | none => ctrl
    | some xs =>
      if xs.length = m.numActions then
        (List.range m.numActions).foldl
          (ctrlWriteStep ctx qpos qvel m xs robotIdx) ctrl
      else ctrl

/-- One sub-step's control phase over all robots (in robot-index order),
executed only under `control_type === 'joint_position'`. -/
def controlPhaseMulti (ctx : LoopCtx) (st : SimState)
    (targets : List (Option (List ℚ))) : List (Option ℚ) :=
  if ctx.jointPositionControl then
    (List.range ctx.mappings.length).foldl
      (applyRobotCtrl ctx st.qpos st.qvel targets) st.ctrl
  else st.ctrl

/-- One physics sub-step (lines 608-748, drag-force injection elided):
control writes, then `simulation.step()`. -/
def substepMulti (ctx : LoopCtx) (targets : List (Option (List ℚ)))
    (st : SimState) : SimState :=
  let ctrl' := controlPhaseMulti ctx st targets
  let qv' := ctx.physStep st.qpos st.qvel ctrl'
  { qpos := qv'.1, qvel := qv'.2, ctrl := ctrl', stepCount := st.stepCount + 1 }

/-- The decimation sub-step loop. -/
def substepsMulti (ctx : LoopCtx) (targets : List (Option (List ℚ))) :
    ℕ → SimState → SimState
  | 0, st => st
  | n + 1, st => substepsMulti ctx targets n (substepMulti ctx targets st)

/-- Result of one loop tick. -/
structure TickResult where
  st : SimState
  alive : Bool
  actionTarget : Option (List ℚ)
deriving Repr

/-- One tick of the running loop in multi-robot mode (lines 550-748):
an inference exception clears `alive` and breaks before the sub-step
loop; otherwise the decimation sub-steps run and `this.actionTarget`
caches robot 0's target. -/
def tickMulti (ctx : LoopCtx) (prev : Option (List ℚ)) (st : SimState) :
    TickResult :=
  match collectTargets ctx with
  | .error _ => { st := st, alive := false, actionTarget := prev }
  | .ok targets =>
    { st := substepsMulti ctx targets ctx.decimation st
      alive := true
      actionTarget := targets.getD 0 none }

/-! ### The single-robot path (lines 595-605 and 686-707) -/

/-- Per-tick context in single-robot mode. -/
structure SingleCtx where
  numActions : ℕ
  qpos_adr_policy : List ℕ
  qvel_adr_policy : List ℕ
  ctrl_adr_policy : List ℕ
  kpPolicy : Option (List ℚ)
  kdPolicy : Option (List ℚ)
  ctrlRange : Option (List JSNum)
  decimation : ℕ
  jointPositionControl : Bool
  physStep : List ℚ → List ℚ → List (Option ℚ) → List ℚ × List ℚ

/-- Line 693: `this.actionTarget ? this.actionTarget[i] : 0.0`.  A nullish
target is falsy and commands position `0`; an array (even empty) is truthy
and is indexed directly, yielding `undefined` (NaN) past its length. -/
def targetJposSingle (a : JSVal) (i : ℕ) : Option ℚ :=
  match a with
  | .nullish => some 0
  | .arr xs => xs[i]?

/-- Lines 688-706: the single-robot control write for index `i` — note
there is no validation of the cached action target here. -/
def ctrlWriteStepSingle (ctx : SingleCtx) (qpos qvel : List ℚ) (a : JSVal)
    (ctrl : List (Option ℚ)) (i : ℕ) : List (Option ℚ) :=
  let qp := readAt qpos (ctx.qpos_adr_policy[i]?)
  let qv := readAt qvel (ctx.qvel_adr_policy[i]?)
  let kp := gainAt ctx.kpPolicy i
  let kd := gainAt ctx.kdPolicy i
  let torque := pdTorque kp kd (targetJposSingle a i) qp qv
  match ctx.ctrl_adr_policy[i]? with
  | none => ctrl
  | some ctrlAdr => ctrl.set ctrlAdr (clampIfRange ctx.ctrlRange ctrlAdr torque)

/-- Single-robot control phase of one sub-step. -/
def controlPhaseSingle (ctx : SingleCtx) (st : SimState) (a : JSVal) :
    List (Option ℚ) :=
  if ctx.jointPositionControl then
    (List.range ctx.numActions).foldl
      (ctrlWriteStepSingle ctx st.qpos st.qvel a) st.ctrl
  else st.ctrl

/-- One single-robot physics sub-step. -/
def substepSingle (ctx : SingleCtx) (a : JSVal) (st : SimState) : SimState :=
  let ctrl' := controlPhaseSingle ctx st a
  let qv' := ctx.physStep st.qpos st.qvel ctrl'
  { qpos := qv'.1, qvel := qv'.2, ctrl := ctrl', stepCount := st.stepCount + 1 }

/-- Single-robot decimation loop. -/
def substepsSingle (ctx : SingleCtx) (a : JSVal) : ℕ → SimState → SimState
  | 0, st => st
  | n + 1, st => substepsSingle ctx a n (substepSingle ctx a st)

/-- One tick in single-robot mode (lines 595-605): the raw step result is
cached without validation; an exception clears `alive` and breaks. -/
def tickSingle (ctx : SingleCtx) (prev : JSVal) (oc : StepOutcome)
    (st : SimState) : SimState × Bool × JSVal :=
  match oc with
  | .throws => (st, false, prev)
  | .ok v => (substepsSingle ctx v ctx.decimation st, true, v)

/-- All control addresses registered across the robots, in robot order;
their distinctness is the sanity condition on a loaded model's mapping
tables. -/
def robotCtrlAdrs (om : Option JointMapping) : List ℕ :=
  match om with
  | none => []
  | some m => m.ctrl_adr_policy

/-- All control addresses flattened in robot order. -/
def allCtrlAdrs (ctx : LoopCtx) : List ℕ :=
  (ctx.mappings.map robotCtrlAdrs).flatten

/-! ### Helper lemmas about the control fold -/

lemma mem_of_idx {α : Type _} {l : List α} {i : ℕ} {a : α}
    (h : l[i]? = some a) : a ∈ l := by
  obtain ⟨hlt, he⟩ := List.getElem?_eq_some_iff.1 h
  exact he ▸ List.getElem_mem hlt

lemma ctrlWriteStep_length (ctx : LoopCtx) (qpos qvel : List ℚ)
    (m : JointMapping) (xs : List ℚ) (r : ℕ) (ctrl : List (Option ℚ)) (i : ℕ) :
    (ctrlWriteStep ctx qpos qvel m xs r ctrl i).length = ctrl.length := by
  unfold ctrlWriteStep
  cases m.ctrl_adr_policy[i]? <;> simp

lemma foldl_ctrlWriteStep_length (ctx : LoopCtx) (qpos qvel : List ℚ)
    (m : JointMapping) (xs : List ℚ) (r : ℕ) (l : List ℕ) :
    ∀ ctrl : List (Option ℚ),
      (l.foldl (ctrlWriteStep ctx qpos qvel m xs r) ctrl).length = ctrl.length := by
  induction l with
  | nil => intro _; rfl
  | cons j t ih =>
    intro ctrl
    rw [List.foldl_cons, ih, ctrlWriteStep_length]

lemma ctrlWriteStep_getElem?_ne (ctx : LoopCtx) (qpos qvel : List ℚ)
    (m : JointMapping) (xs : List ℚ) (r : ℕ) (ctrl : List (Option ℚ))
    (i a : ℕ) (h : ∀ c, m.ctrl_adr_policy[i]? = some c → c ≠ a) :
    (ctrlWriteStep ctx qpos qvel m xs r ctrl i)[a]? = ctrl[a]? := by
  unfold ctrlWriteStep
  cases hc : m.ctrl_adr_policy[i]? with
  | none => rfl
  | some c => exact List.getElem?_set_ne (h c hc)

lemma foldl_ctrlWriteStep_getElem?_ne (ctx : LoopCtx) (qpos qvel : List ℚ)
    (m : JointMapping) (xs : List ℚ) (r a : ℕ)
    (ha : a ∉ m.ctrl_adr_policy) (l : List ℕ) :
    ∀ ctrl : List (Option ℚ),
      (l.foldl (ctrlWriteStep ctx qpos qvel m xs r) ctrl)[a]? = ctrl[a]? := by
  induction l with
  | nil => intro _; rfl
  | cons j t ih =>
    intro ctrl
    rw [List.foldl_cons, ih, ctrlWriteStep_getElem?_ne]
    intro c hc hca
    subst hca
    obtain ⟨hlt, he⟩ := List.getElem?_eq_some_iff.1 hc
    exact ha (he ▸ List.getElem_mem hlt)

lemma ctrlWriteStep_getElem?_ne_idx (ctx : LoopCtx) (qpos qvel : List ℚ)
    (m : JointMapping) (xs : List ℚ) (r : ℕ) (ctrl : List (Option ℚ))
    (i j cAdr : ℕ) (hc : m.ctrl_adr_policy[i]? = some cAdr)
    (hnd : m.ctrl_adr_policy.Nodup) (hji : j ≠ i) :
    (ctrlWriteStep ctx qpos qvel m xs r ctrl j)[cAdr]? = ctrl[cAdr]? := by
  apply ctrlWriteStep_getElem?_ne
  intro c hcj hceq
  subst hceq
  exact hji (List.getElem?_inj (List.getElem?_eq_some_iff.1 hcj).1 hnd
    (by rw [hcj, hc]))

lemma foldl_ctrlWriteStep_pres (ctx : LoopCtx) (qpos qvel : List ℚ)
    (m : JointMapping) (xs : List ℚ) (r i cAdr : ℕ)
    (hc : m.ctrl_adr_policy[i]? = some cAdr) (hnd : m.ctrl_adr_policy.Nodup)
    (l : List ℕ) (hni : i ∉ l) :
    ∀ ctrl : List (Option ℚ),
      (l.foldl (ctrlWriteStep ctx qpos qvel m xs r) ctrl)[cAdr]? = ctrl[cAdr]? := by
  induction l with
  | nil => intro _; rfl
  | cons j t ih =>
    intro ctrl
    rw [List.foldl_cons, ih (fun h => hni (List.mem_cons_of_mem _ h)),
      ctrlWriteStep_getElem?_ne_idx ctx qpos qvel m xs r ctrl i j cAdr hc hnd
        (fun h => hni (h ▸ List.mem_cons_self _ _))]

lemma foldl_ctrlWriteStep_hit (ctx : LoopCtx) (qpos qvel : List ℚ)
    (m : JointMapping) (xs : List ℚ) (r i cAdr : ℕ)
    (hc : m.ctrl_adr_policy[i]? = some cAdr) (hnd : m.ctrl_adr_policy.Nodup)
    (l : List ℕ) (hl : l.Nodup) (hi : i ∈ l) :
    ∀ ctrl : List (Option ℚ), cAdr < ctrl.length →
      (l.foldl (ctrlWriteStep ctx qpos qvel m xs r) ctrl)[cAdr]? =
        some (ctrlValueAt ctx qpos qvel m xs r i cAdr) := by
  induction l with
  | nil => cases hi
  | cons j t ih =>
    intro ctrl hlen
    rw [List.foldl_cons]
    rcases List.mem_cons.1 hi with hji | hit
    · subst hji
      have hstep : ctrlWriteStep ctx qpos qvel m xs r ctrl i =
          ctrl.set cAdr (ctrlValueAt ctx qpos qvel m xs r i cAdr) := by
        unfold ctrlWriteStep
        rw [hc]
      rw [hstep, foldl_ctrlWriteStep_pres ctx qpos qvel m xs r i cAdr hc hnd t
        (List.nodup_cons.1 hl).1]
      simp [List.getElem?_set_self, hlen]
    · have hji : j ≠ i := by
        intro h
        exact (List.nodup_cons.1 hl).1 (h ▸ hit)
      rw [ih (List.nodup_cons.1 hl).2 hit]
      rw [ctrlWriteStep_length]
      exact hlen

/-! ### Helper lemmas about the per-robot fold -/

lemma applyRobotCtrl_length (ctx : LoopCtx) (qpos qvel : List ℚ)
    (targets : List (Option (List ℚ))) (ctrl : List (Option ℚ)) (r : ℕ) :
    (applyRobotCtrl ctx qpos qvel targets ctrl r).length = ctrl.length := by
  unfold applyRobotCtrl
  cases ctx.mappings.getD r none with
  | none => rfl
  | some m =>
    cases targets.getD r none with
    | none => rfl
    | some xs =>
      by_cases h : xs.length = m.numActions
      · simp only [h, if_true]
        exact foldl_ctrlWriteStep_length ..
      · simp only [h, if_false]

lemma applyRobotCtrl_getElem?_ne (ctx : LoopCtx) (qpos qvel : List ℚ)
    (targets : List (Option (List ℚ))) (ctrl : List (Option ℚ)) (r a : ℕ)
    (h : ∀ m, ctx.mappings.getD r none = some m → a ∉ m.ctrl_adr_policy) :
    (applyRobotCtrl ctx qpos qvel targets ctrl r)[a]? = ctrl[a]? := by
  unfold applyRobotCtrl
  cases hm : ctx.mappings.getD r none with
  | none => rfl
  | some m =>
    cases targets.getD r none with
    | none => rfl
    | some xs =>
      by_cases hx : xs.length = m.numActions
      · simp only [hx, if_true]
        exact foldl_ctrlWriteStep_getElem?_ne ctx qpos qvel m xs r a (h m hm) _ _
      · simp only [hx, if_false]

lemma foldl_applyRobotCtrl_length (ctx : LoopCtx) (qpos qvel : List ℚ)
    (targets : List (Option (List ℚ))) (l : List ℕ) :
    ∀ ctrl : List (Option ℚ),
      (l.foldl (applyRobotCtrl ctx qpos qvel targets) ctrl).length = ctrl.length := by
  induction l with
  | nil => intro _; rfl
  | cons j t ih =>
    intro ctrl
    rw [List.foldl_cons, ih, applyRobotCtrl_length]

lemma foldl_applyRobotCtrl_pres (ctx : LoopCtx) (qpos qvel : List ℚ)
    (targets : List (Option (List ℚ))) (a : ℕ) (l : List ℕ)
    (h : ∀ r ∈ l, ∀ ctrl : List (Option ℚ),
      (applyRobotCtrl ctx qpos qvel targets ctrl r)[a]? = ctrl[a]?) :
    ∀ ctrl : List (Option ℚ),
      (l.foldl (applyRobotCtrl ctx qpos qvel targets) ctrl)[a]? = ctrl[a]? := by
  induction l with
  | nil => intro _; rfl
  | cons j t ih =>
    intro ctrl
    rw [List.foldl_cons, ih (fun r hr => h r (List.mem_cons_of_mem _ hr)),
      h j (List.mem_cons_self _ _)]

/-! ### Distinctness of the registered control addresses -/

lemma allCtrlAdrs_nodup_each (ctx : LoopCtx) (h : (allCtrlAdrs ctx).Nodup)
    {r : ℕ} {m : JointMapping} (hr : r < ctx.mappings.length)
    (hm : ctx.mappings.getD r none = some m) : m.ctrl_adr_policy.Nodup := by
  have h1 := (List.nodup_flatten.1 h).1
  have hmem : robotCtrlAdrs (some m) ∈ ctx.mappings.map robotCtrlAdrs := by
    apply List.mem_map_of_mem
    rw [List.getD_eq_getElem _ _ hr] at hm
    exact hm ▸ List.getElem_mem hr
  exact h1 _ hmem

lemma allCtrlAdrs_disjoint (ctx : LoopCtx) (h : (allCtrlAdrs ctx).Nodup)
    {r r' : ℕ} {m m' : JointMapping} (hr : r < ctx.mappings.length)
    (hr' : r' < ctx.mappings.length) (hne : r ≠ r')
    (hm : ctx.mappings.getD r none = some m)
    (hm' : ctx.mappings.getD r' none = some m') :
    ∀ a ∈ m.ctrl_adr_policy, a ∉ m'.ctrl_adr_policy := by
  have hp := (List.nodup_flatten.1 h).2
  have hrl : r < (ctx.mappings.map robotCtrlAdrs).length := by
    rw [List.length_map]; exact hr
  have hrl' : r' < (ctx.mappings.map robotCtrlAdrs).length := by
    rw [List.length_map]; exact hr'
  rw [List.getD_eq_getElem _ _ hr] at hm
  rw [List.getD_eq_getElem _ _ hr'] at hm'
  have hget : (ctx.mappings.map robotCtrlAdrs)[r] = m.ctrl_adr_policy := by
    rw [List.getElem_map, hm]
    rfl
  have hget' : (ctx.mappings.map robotCtrlAdrs)[r'] = m'.ctrl_adr_policy := by
    rw [List.getElem_map, hm']
    rfl
  rcases lt_or_gt_of_ne hne with hlt | hgt
  · have := List.pairwise_iff_getElem.1 hp r r' hrl hrl' hlt
    rw [hget, hget'] at this
    exact this
  · have := List.pairwise_iff_getElem.1 hp r' r hrl' hrl hgt
    rw [hget, hget'] at this
    exact fun a ha ha' => this ha' ha

/-! ### The control phase writes exactly the clamped PD command -/

lemma controlPhase_fold_hit (ctx : LoopCtx) (qpos qvel : List ℚ)
    (targets : List (Option (List ℚ))) (r i cAdr : ℕ) (m : JointMapping)
    (xs : List ℚ) (hnd : (allCtrlAdrs ctx).Nodup)
    (hm : ctx.mappings.getD r none = some m)
    (ht : targets.getD r none = some xs) (hlen : xs.length = m.numActions)
    (hi : i < m.numActions) (hc : m.ctrl_adr_policy[i]? = some cAdr)
    (hrlen : r < ctx.mappings.length) :
    ∀ n, r < n → n ≤ ctx.mappings.length →
      ∀ ctrl : List (Option ℚ), cAdr < ctrl.length →
        ((List.range n).foldl (applyRobotCtrl ctx qpos qvel targets) ctrl)[cAdr]?
          = some (ctrlValueAt ctx qpos qvel m xs r i cAdr) := by
  intro n
  induction n with
  | zero => intro h; cases h
  | succ k ih =>
    intro hrk hkle ctrl hclen
    rw [List.range_succ, List.foldl_append, List.foldl_cons, List.foldl_nil]
    rcases Nat.lt_succ_iff_lt_or_eq.1 hrk with hrlt | hreq
    · -- robot r was hit inside `range k`; robot `k` does not touch `cAdr`
      have hk : k < ctx.mappings.length := hkle
      rw [applyRobotCtrl_getElem?_ne]
      · exact ih hrlt (Nat.le_of_succ_le hkle) ctrl hclen
      · intro m' hm'
        intro hmem
        exact allCtrlAdrs_disjoint ctx hnd hk hrlen (Nat.ne_of_gt hrlt) hm' hm
          cAdr hmem (mem_of_idx hc)
    · -- robot `k = r` performs the write
      subst hreq
      have happly : applyRobotCtrl ctx qpos qvel targets
          ((List.range r).foldl (applyRobotCtrl ctx qpos qvel targets) ctrl) r
          = (List.range m.numActions).foldl
              (ctrlWriteStep ctx qpos qvel m xs r)
              ((List.range r).foldl (applyRobotCtrl ctx qpos qvel targets) ctrl) := by
        unfold applyRobotCtrl
        rw [hm, ht]
        simp only [hlen, if_true]
      rw [happly]
      apply foldl_ctrlWriteStep_hit ctx qpos qvel m xs r i cAdr hc
        (allCtrlAdrs_nodup_each ctx hnd hrlen hm) _ (List.nodup_range _)
        (List.mem_range.2 hi)
      rw [foldl_applyRobotCtrl_length]
      exact hclen

lemma readAt_some (a : List ℚ) (adr : ℕ) : readAt a (some adr) = a[adr]? := rfl

lemma gainAt_some (A : List ℚ) (i : ℕ) : gainAt (some A) i = A[i]? := rfl

lemma collectTargetsList_error (l : List (Bool × StepOutcome))
    (h : ∃ p ∈ l, robotInfer p.1 p.2 = .error ()) :
    collectTargetsList l = .error () := by
  induction l with
  | nil =>
    obtain ⟨p, hp, _⟩ := h
    cases hp
  | cons q t ih =>
    obtain ⟨a, b⟩ := q
    obtain ⟨p, hp, he⟩ := h
    rcases List.mem_cons.1 hp with heq | hpt
    · subst heq
      simp only at he
      show collectTargetsList ((a, b) :: t) = .error ()
      unfold collectTargetsList
      rw [he]
    · show collectTargetsList ((a, b) :: t) = .error ()
      unfold collectTargetsList
      cases hri : robotInfer a b with
      | error e => cases e; rfl
      | ok tgt => rw [ih ⟨p, hpt, he⟩]

lemma collectTargetsList_ok (l : List (Bool × StepOutcome))
    (h : ∀ p ∈ l, robotInfer p.1 p.2 ≠ .error ()) :
    ∃ ts, collectTargetsList l = .ok ts := by
  induction l with
  | nil => exact ⟨[], rfl⟩
  | cons q t ih =>
    obtain ⟨a, b⟩ := q
    obtain ⟨ts, hts⟩ :=
      ih (fun p hp => h p (List.mem_cons_of_mem _ hp))
    cases hri : robotInfer a b with
    | error e =>
      cases e
      exact absurd hri (h (a, b) (List.mem_cons_self _ _))
    | ok tgt =>
      refine ⟨tgt :: ts, ?_⟩
      show collectTargetsList ((a, b) :: t) = _
      unfold collectTargetsList
      rw [hri, hts]

lemma clampIfRange_eq_clampSpec (cr : List JSNum) (adr : ℕ) (t : ℚ)
    (h : (adr + 1) * 2 ≤ cr.length) :
    clampIfRange (some cr) adr (some t) =
      some (clampSpec (cr.getD (adr * 2) .nan) (cr.getD (adr * 2 + 1) .nan) t) := by
  simp only [clampIfRange, clampSpec]
  rw [if_pos h]
  cases cr.getD (adr * 2) JSNum.nan <;> cases cr.getD (adr * 2 + 1) JSNum.nan <;>
    simp [vmin, vmax] <;> split <;> simp

lemma pdTorque_some (kp kd t p v : ℚ) :
    pdTorque (some kp) (some kd) (some t) (some p) (some v) =
      some (kp * (t - p) + kd * (0 - v)) := rfl

lemma substepsMulti_stepCount (ctx : LoopCtx) (targets : List (Option (List ℚ))) :
    ∀ n st, (substepsMulti ctx targets n st).stepCount = st.stepCount + n := by
  intro n
  induction n with
  | zero => intro st; rfl
  | succ k ih =>
    intro st
    show (substepsMulti ctx targets k (substepMulti ctx targets st)).stepCount = _
    rw [ih]
    show st.stepCount + 1 + k = st.stepCount + (k + 1)
    omega

/-- **C1.**  For every robot and controlled degree-of-freedom index `i` with
a valid action target, the control value written to the physics `ctrl`
array at the mapped address equals the PD torque
`kp[i]*(target[i] - qpos[qpos_adr[i]]) + kd[i]*(0 - qvel[qvel_adr[i]])`,
clamped into `[min, max]` exactly when the actuator's declared control
range at that address has both bounds finite and `min < max`, and equal to
the unclamped torque otherwise (the clamping condition is embodied by the
spec-side `clampSpec`). -/
theorem C1_ctrl_write_pd_clamp
    (ctx : LoopCtx) (st : SimState) (targets : List (Option (List ℚ)))
    (r i : ℕ) (m : JointMapping) (xs : List ℚ) (cAdr qpAdr qvAdr : ℕ)
    (p v kpi kdi : ℚ) (kpA kdA : List ℚ) (cr : List JSNum)
    (hjp : ctx.jointPositionControl = true)
    (hnd : (allCtrlAdrs ctx).Nodup)
    (hr : r < ctx.mappings.length)
    (hm : ctx.mappings.getD r none = some m)
    (ht : targets.getD r none = some xs)
    (hlen : xs.length = m.numActions)
    (hi : i < m.numActions)
    (hqpa : m.qpos_adr_policy[i]? = some qpAdr)
    (hqva : m.qvel_adr_policy[i]? = some qvAdr)
    (hca : m.ctrl_adr_policy[i]? = some cAdr)
    (hp : st.qpos[qpAdr]? = some p)
    (hv : st.qvel[qvAdr]? = some v)
    (hkp : robotKpArr ctx r = some kpA) (hkpi : kpA[i]? = some kpi)
    (hkd : robotKdArr ctx r = some kdA) (hkdi : kdA[i]? = some kdi)
    (hcr : ctx.ctrlRange = some cr)
    (hcrl : (cAdr + 1) * 2 ≤ cr.length)
    (hcl : cAdr < st.ctrl.length) :
    (controlPhaseMulti ctx st targets)[cAdr]?
      = some (some (clampSpec (cr.getD (cAdr * 2) .nan)
          (cr.getD (cAdr * 2 + 1) .nan)
          (kpi * (xs.getD i 0 - p) + kdi * (0 - v)))) := by
  unfold controlPhaseMulti
  rw [hjp, if_pos rfl]
  rw [controlPhase_fold_hit ctx st.qpos st.qvel targets r i cAdr m xs hnd hm ht
    hlen hi hca hr ctx.mappings.length hr (le_refl _) st.ctrl hcl]
  unfold ctrlValueAt
  rw [hcr, hqpa, hqva, hkp, hkd, readAt_some, readAt_some, gainAt_some,
    gainAt_some, hp, hv, hkpi, hkdi, pdTorque_some,
    clampIfRange_eq_clampSpec cr cAdr _ hcrl]

/-- Concrete instance data for the loop-model witnesses. -/
def mW : JointMapping := ⟨[0], [0], [0], 1⟩

/-- A one-robot loop context used by the witnesses. -/
def ctxW : LoopCtx :=
  { mappings := [some mW]
    runners := [true]
    outcomes := [.ok (.arr [1])]
    robotPolicyParams := []
    kpPolicy := some [2]
    kdPolicy := some [3]
    ctrlRange := some [.fin (-10), .fin 10]
    decimation := 2
    jointPositionControl := true
    physStep := fun qp qv _ => (qp, qv) }

/-- Concrete physics state for the loop-model witnesses. -/
def stW : SimState := ⟨[1/2], [1/4], [some 0], 0⟩

theorem C1_ctrl_write_pd_clamp_witness :
    (controlPhaseMulti ctxW stW [some [1]])[0]?
      = some (some (clampSpec (JSNum.fin (-10)) (JSNum.fin 10)
          (2 * ((1 : ℚ) - 1/2) + 3 * (0 - 1/4)))) :=
  C1_ctrl_write_pd_clamp ctxW stW [some [1]] 0 0 mW [1] 0 0 0 (1/2) (1/4) 2 3
    [2] [3] [.fin (-10), .fin 10] rfl (by decide) (by decide) rfl rfl rfl
    (by decide) rfl rfl rfl rfl rfl rfl rfl rfl rfl rfl (by decide) (by decide)

/-- **C3.**  A policy `step` that raises clears the loop's `alive` flag and
breaks before the decimation sub-step loop (the physics state of that tick
is untouched); a per-robot validation failure of the returned target is not
fatal: `alive` stays set and all decimation sub-steps of the tick execute.
The same exception behaviour holds on the single-robot path. -/
theorem C3_policy_exception_fatal :
    (∀ (ctx : LoopCtx) (prev : Option (List ℚ)) (st : SimState) (r : ℕ),
        r < ctx.mappings.length →
        ctx.runners.getD r false = true →
        ctx.outcomes.getD r .throws = .throws →
        tickMulti ctx prev st = ⟨st, false, prev⟩)
    ∧ (∀ (ctx : LoopCtx) (prev : Option (List ℚ)) (st : SimState),
        (∀ r, r < ctx.mappings.length → ctx.runners.getD r false = true →
          ctx.outcomes.getD r .throws ≠ .throws) →
        (tickMulti ctx prev st).alive = true ∧
          (tickMulti ctx prev st).st.stepCount = st.stepCount + ctx.decimation)
    ∧ (∀ (ctx : SingleCtx) (prev : JSVal) (st : SimState),
        tickSingle ctx prev .throws st = (st, false, prev)) := by
  refine ⟨?_, ?_, ?_⟩
  · intro ctx prev st r hr hrun hoc
    have herr : collectTargets ctx = .error () := by
      unfold collectTargets
      apply collectTargetsList_error
      refine ⟨(ctx.runners.getD r false, ctx.outcomes.getD r .throws), ?_, ?_⟩
      · exact List.mem_map_of_mem _ (List.mem_range.2 hr)
      · rw [hrun, hoc]
        rfl
    unfold tickMulti
    rw [herr]
  · intro ctx prev st hok
    obtain ⟨ts, hts⟩ : ∃ ts, collectTargets ctx = .ok ts := by
      unfold collectTargets
      apply collectTargetsList_ok
      intro p hp
      obtain ⟨x, hx, hpx⟩ := List.mem_map.1 hp
      subst hpx
      by_cases hrx : ctx.runners.getD x false = true
      · rw [hrx]
        cases hocx : ctx.outcomes.getD x .throws with
        | throws => exact absurd hocx (hok x (List.mem_range.1 hx) hrx)
        | ok v =>
          cases v with
          | nullish => simp [robotInfer]
          | arr xs => by_cases h0 : xs.length = 0 <;> simp [robotInfer, h0]
      · rw [Bool.not_eq_true] at hrx
        rw [hrx]
        simp [robotInfer]
    unfold tickMulti
    rw [hts]
    exact ⟨rfl, substepsMulti_stepCount ..⟩
  · intro ctx prev st
    rfl

theorem C3_policy_exception_fatal_witness :
    tickMulti { ctxW with outcomes := [.throws] } none stW
        = ⟨stW, false, none⟩ ∧
      (tickMulti ctxW none stW).alive = true ∧
      (tickMulti ctxW none stW).st.stepCount = stW.stepCount + ctxW.decimation := by
  refine ⟨?_, ?_⟩
  · exact C3_policy_exception_fatal.1 { ctxW with outcomes := [.throws] } none stW
      0 (by decide) rfl rfl
  · exact C3_policy_exception_fatal.2.1 ctxW none stW
      (by
        intro r hr _
        have h1 : ctxW.mappings.length = 1 := rfl
        have hr0 : r = 0 := by omega
        subst hr0
        decide)

/-! ### C4: invalid action targets -/

/-- Robot `r`'s action target for this tick is invalid: absent, or of a
length different from the mapping's `numActions`. -/
def invalidTargetFor (targets : List (Option (List ℚ))) (r : ℕ)
    (m : JointMapping) : Prop :=
  targets.getD r none = none ∨
    ∃ xs, targets.getD r none = some xs ∧ xs.length ≠ m.numActions

lemma applyRobotCtrl_skip (ctx : LoopCtx) (qpos qvel : List ℚ)
    (targets : List (Option (List ℚ))) (r : ℕ) (m : JointMapping)
    (hm : ctx.mappings.getD r none = some m)
    (hinv : invalidTargetFor targets r m) (ctrl : List (Option ℚ)) :
    applyRobotCtrl ctx qpos qvel targets ctrl r = ctrl := by
  unfold applyRobotCtrl
  rw [hm]
  rcases hinv with hnone | ⟨xs, hxs, hne⟩
  · rw [hnone]
  · rw [hxs]
    simp only [hne, if_false]

lemma setD_getD_self (targets : List (Option (List ℚ))) (r : ℕ) :
    (targets.set r none).getD r none = none := by
  rw [List.getD_eq_getElem?_getD]
  by_cases hr : r < targets.length
  · rw [List.getElem?_set_self hr]
    rfl
  · rw [List.getElem?_eq_none (by rw [List.length_set]; omega)]
    rfl

lemma setD_getD_ne (targets : List (Option (List ℚ))) (r r' : ℕ)
    (h : r ≠ r') :
    (targets.set r none).getD r' none = targets.getD r' none := by
  rw [List.getD_eq_getElem?_getD, List.getD_eq_getElem?_getD,
    List.getElem?_set_ne h]

lemma controlPhaseMulti_pres_invalid (ctx : LoopCtx) (st : SimState)
    (targets : List (Option (List ℚ))) (r cAdr : ℕ) (m : JointMapping)
    (hnd : (allCtrlAdrs ctx).Nodup) (hr : r < ctx.mappings.length)
    (hm : ctx.mappings.getD r none = some m)
    (hinv : invalidTargetFor targets r m) (hc : cAdr ∈ m.ctrl_adr_policy) :
    (controlPhaseMulti ctx st targets)[cAdr]? = st.ctrl[cAdr]? := by
  unfold controlPhaseMulti
  by_cases hjp : ctx.jointPositionControl
  · rw [if_pos hjp]
    apply foldl_applyRobotCtrl_pres
    intro r' hr' ctrl
    by_cases hrr : r' = r
    · subst hrr
      rw [applyRobotCtrl_skip ctx st.qpos st.qvel targets r' m hm hinv]
    · apply applyRobotCtrl_getElem?_ne
      intro m' hm' hmem
      exact allCtrlAdrs_disjoint ctx hnd (List.mem_range.1 hr') hr hrr hm' hm
        cAdr hmem hc
  · rw [if_neg hjp]

/-- **C4 (amended).**  In multi-robot mode: if a robot's action target is
invalid or missing, every `ctrl` entry at that robot's mapped addresses is
left unchanged for all sub-steps of the tick, and the whole tick proceeds
exactly as if that robot's target were simply absent (so the writes of the
other robots are unaffected).  The original claim also asserted this for
single-robot mode, which the counterexample refutes. -/
theorem C4_invalid_target_skipped_multi :
    (∀ (ctx : LoopCtx) (targets : List (Option (List ℚ))) (st : SimState)
        (r cAdr : ℕ) (m : JointMapping) (n : ℕ),
        (allCtrlAdrs ctx).Nodup → r < ctx.mappings.length →
        ctx.mappings.getD r none = some m →
        invalidTargetFor targets r m →
        cAdr ∈ m.ctrl_adr_policy →
        (substepsMulti ctx targets n st).ctrl[cAdr]? = st.ctrl[cAdr]?)
    ∧ (∀ (ctx : LoopCtx) (targets : List (Option (List ℚ))) (st : SimState)
        (r : ℕ) (m : JointMapping) (n : ℕ),
        ctx.mappings.getD r none = some m →
        invalidTargetFor targets r m →
        substepsMulti ctx targets n st =
          substepsMulti ctx (targets.set r none) n st) := by
  constructor
  · intro ctx targets st r cAdr m n hnd hr hm hinv hc
    induction n generalizing st with
    | zero => rfl
    | succ k ih =>
      show (substepsMulti ctx targets k (substepMulti ctx targets st)).ctrl[cAdr]? = _
      rw [ih (substepMulti ctx targets st)]
      exact controlPhaseMulti_pres_invalid ctx st targets r cAdr m hnd hr hm
        hinv hc
  · intro ctx targets st r m n hm hinv
    have happly : ∀ (qpos qvel : List ℚ) (ctrl : List (Option ℚ)) (r' : ℕ),
        applyRobotCtrl ctx qpos qvel (targets.set r none) ctrl r' =
          applyRobotCtrl ctx qpos qvel targets ctrl r' := by
      intro qpos qvel ctrl r'
      by_cases hrr : r' = r
      · subst hrr
        rw [applyRobotCtrl_skip ctx qpos qvel targets r' m hm hinv]
        apply applyRobotCtrl_skip ctx qpos qvel _ r' m hm
        exact Or.inl (setD_getD_self targets r')
      · unfold applyRobotCtrl
        rw [setD_getD_ne targets r r' (fun h => hrr h.symm)]
    have hphase : ∀ st : SimState,
        controlPhaseMulti ctx st (targets.set r none) =
          controlPhaseMulti ctx st targets := by
      intro st'
      unfold controlPhaseMulti
      by_cases hjp : ctx.jointPositionControl
      · rw [if_pos hjp, if_pos hjp]
        exact List.foldl_ext _ _ st'.ctrl
          (fun ctrl r' _ => happly st'.qpos st'.qvel ctrl r')
      · rw [if_neg hjp, if_neg hjp]
    induction n generalizing st with
    | zero => rfl
    | succ k ih =>
      show substepsMulti ctx targets k (substepMulti ctx targets st) =
        substepsMulti ctx (targets.set r none) k
          (substepMulti ctx (targets.set r none) st)
      rw [show substepMulti ctx (targets.set r none) st =
          substepMulti ctx targets st by
        unfold substepMulti
        rw [hphase st]]
      exact ih (substepMulti ctx targets st)

/-- Single-robot context for the C4 counterexample: one actuator with
`kp = 1`, no control range, one sub-step. -/
def ctxS : SingleCtx :=
  { numActions := 1
    qpos_adr_policy := [0]
    qvel_adr_policy := [0]
    ctrl_adr_policy := [0]
    kpPolicy := some [1]
    kdPolicy := some [0]
    ctrlRange := none
    decimation := 1
    jointPositionControl := true
    physStep := fun qp qv _ => (qp, qv) }

/-- Physics state for the C4 counterexample: the joint sits at position 2
and the actuator holds the previously commanded value 5. -/
def stS : SimState := ⟨[2], [0], [some 5], 0⟩

/-- **C4 (counterexample).**  In single-robot mode a missing action target
(the policy returned `null`, no exception) is *not* skipped: the loop
treats the target as position `0` and overwrites the held command `5` with
`kp * (0 - qpos[0]) = -2`, silently driving the joint toward zero —
contradicting the claim that the skip behaviour holds in both modes. -/
theorem C4_counterexample_single_mode :
    (tickSingle ctxS .nullish (.ok .nullish) stS).1.ctrl ≠ stS.ctrl ∧
      (tickSingle ctxS .nullish (.ok .nullish) stS).1.ctrl = [some (-2)] := by
  have h : (tickSingle ctxS .nullish (.ok .nullish) stS).1.ctrl = [some (-2)] := by
    show (substepsSingle ctxS .nullish ctxS.decimation stS).ctrl = [some (-2)]
    norm_num [ctxS, stS, substepsSingle, substepSingle, controlPhaseSingle,
      ctrlWriteStepSingle, readAt, readArr, gainAt, targetJposSingle, pdTorque,
      vadd, vsub, vmul, clampIfRange, List.range_succ]
  refine ⟨?_, h⟩
  rw [h]
  simp only [stS, ne_eq, List.cons.injEq, Option.some.injEq, and_true]
  norm_num

/-- Two-robot mapping for the C4 witness. -/
def mW2 : JointMapping := ⟨[1], [1], [1], 1⟩

/-- Two-robot loop context for the C4 witness; robot 1 has no target. -/
def ctxW2 : LoopCtx :=
  { mappings := [some mW, some mW2]
    runners := [true, true]
    outcomes := [.ok (.arr [1]), .ok .nullish]
    robotPolicyParams := []
    kpPolicy := some [2]
    kdPolicy := some [3]
    ctrlRange := none
    decimation := 2
    jointPositionControl := true
    physStep := fun qp qv _ => (qp, qv) }

/-- Two-robot physics state for the C4 witness. -/
def stW2 : SimState := ⟨[1/2, 1], [1/4, 0], [some 0, some 7], 0⟩

theorem C4_invalid_target_skipped_multi_witness :
    (substepsMulti ctxW2 [some [1], none] 2 stW2).ctrl[1]? = stW2.ctrl[1]? ∧
      substepsMulti ctxW2 [some [1], none] 2 stW2 =
        substepsMulti ctxW2 (([some [1], none] : List (Option (List ℚ))).set 1 none)
          2 stW2 := by
  constructor
  · exact C4_invalid_target_skipped_multi.1 ctxW2 [some [1], none] stW2 1 1 mW2
      2 (by decide) (by decide) rfl (Or.inl rfl) (by decide)
  · exact C4_invalid_target_skipped_multi.2 ctxW2 [some [1], none] stW2 1 mW2
      2 rfl (Or.inl rfl)

/-! ### C9: decimation -/

/-- **C9.**  The decimation count is
`max(1, round(controlPeriod / physicsTimestep))` with `controlPeriod`
fixed at `0.02`; for `physicsTimestep = 0.004` it equals 5, and for every
positive timestep — including one larger than the control period — it is
at least 1. -/
theorem C9_decimation :
    controlPeriod = 2 / 100 ∧ computeDecimation (4 / 1000) = 5 ∧
      ∀ ts : ℚ, 0 < ts → 1 ≤ computeDecimation ts := by
  refine ⟨by norm_num [controlPeriod], ?_, ?_⟩
  · show max 1 (round (controlPeriod / (4 / 1000))) = 5
    rw [show controlPeriod / (4 / 1000) = ((5 : ℤ) : ℚ) by
      norm_num [controlPeriod]]
    rw [round_intCast]
    rfl
  · intro ts _
    exact le_max_left 1 _

theorem C9_decimation_witness :
    (0 : ℚ) < 1 / 10 ∧ controlPeriod < 1 / 10 ∧
      1 ≤ computeDecimation (1 / 10) :=
  ⟨by norm_num, by norm_num [controlPeriod],
    C9_decimation.2.2 (1 / 10) (by norm_num)⟩

/-! ### C8: the reset operation (main.js lines 908-940) -/

/-- A robot's spawn configuration (`{x, y, z}`). -/
structure RobotSpawnConfig where
  x : ℚ
  y : ℚ
  z : ℚ
deriving DecidableEq, Repr

/-- The externally visible actions `resetSimulation` performs, in order. -/
inductive ResetEv where
  | pauseOn
  | dataReset
  | forwardCall
  | posesApplied
  | clearTarget
  | runnerResetM (i : ℕ)
  | runnerResetS
  | pauseOff
deriving DecidableEq, Repr

/-- The parts of the demo instance `resetSimulation` consults. -/
structure ResetCtx where
  hasSimulation : Bool
  robotConfigs : List RobotSpawnConfig
  mappingsLen : ℕ
  policyRunners : List Bool
  policyRunner : Bool

/-- The loop flags `resetSimulation` mutates. -/
structure LoopFlags where
  paused : Bool
  actionTarget : Option JSVal
  currentMotion : String
deriving DecidableEq, Repr

/-- Lines 908-940: pause, reset the physics data and recompute forward
kinematics, re-apply the multi-robot spawn poses when more than one config
is present, clear the cached action target, reset every attached policy
runner (all of `policyRunners` in multi-robot mode, else the single
runner), and unpause.  Returns the new flags and the ordered event
trace. -/
def resetSimulation (ctx : ResetCtx) (s : LoopFlags) :
    LoopFlags × List ResetEv :=
  if ctx.hasSimulation = false then (s, [])
  else
    let evs1 : List ResetEv := [.pauseOn, .dataReset, .forwardCall]
    let evs2 := if 1 < ctx.robotConfigs.length then evs1 ++ [.posesApplied]
      else evs1
    let evs3 := evs2 ++ [.clearTarget]
    let isMulti := 1 < ctx.mappingsLen
    let resetEvs : List ResetEv :=
      if isMulti then
        ((List.range ctx.policyRunners.length).filter
          (fun i => ctx.policyRunners.getD i false)).map ResetEv.runnerResetM
      else if ctx.policyRunner then [.runnerResetS] else []
    let motion := if isMulti ∨ ctx.policyRunner then "default" else s.currentMotion
    (⟨false, none, motion⟩, evs3 ++ resetEvs ++ [.pauseOff])

/-- **C8.**  For every invocation of `resetSimulation` with a loaded
simulation: on return `paused` is `false` and the cached `actionTarget` is
cleared; the physics data is reset, the multi-robot spawn poses are
re-applied whenever more than one robot config is present, and every
attached policy runner is reset before the final unpause. -/
theorem C8_reset_contract (ctx : ResetCtx) (s : LoopFlags)
    (hsim : ctx.hasSimulation = true) :
    (resetSimulation ctx s).1.paused = false ∧
      (resetSimulation ctx s).1.actionTarget = none ∧
      ResetEv.dataReset ∈ (resetSimulation ctx s).2 ∧
      (1 < ctx.robotConfigs.length →
        ResetEv.posesApplied ∈ (resetSimulation ctx s).2) ∧
      ∃ body, (resetSimulation ctx s).2 = body ++ [ResetEv.pauseOff] ∧
        (1 < ctx.mappingsLen →
          ∀ i, i < ctx.policyRunners.length →
            ctx.policyRunners.getD i false = true →
            ResetEv.runnerResetM i ∈ body) ∧
        (¬ 1 < ctx.mappingsLen → ctx.policyRunner = true →
          ResetEv.runnerResetS ∈ body) := by
  unfold resetSimulation
  rw [hsim, if_neg (by simp : ¬(true = false))]
  refine ⟨rfl, rfl, ?_, ?_, ?_⟩
  · by_cases hc : 1 < ctx.robotConfigs.length <;>
      simp [hc, List.mem_append]
  · intro hc
    simp [hc, List.mem_append]
  · refine ⟨_, rfl, ?_, ?_⟩
    · intro hmulti i hi hrun
      simp only [hmulti, if_true, List.mem_append]
      right
      apply List.mem_map_of_mem
      rw [List.mem_filter]
      exact ⟨List.mem_range.2 hi, hrun⟩
    · intro hmulti hrun
      simp [hmulti, hrun, List.mem_append]

theorem C8_reset_contract_witness :
    (resetSimulation ⟨true, [⟨0, 0, 0⟩, ⟨1, 0, 0⟩], 2, [true, true], false⟩
        ⟨true, some (.arr [1]), "walk"⟩).1.paused = false ∧
      (resetSimulation ⟨true, [⟨0, 0, 0⟩, ⟨1, 0, 0⟩], 2, [true, true], false⟩
        ⟨true, some (.arr [1]), "walk"⟩).1.actionTarget = none := by
  have h := C8_reset_contract
    ⟨true, [⟨0, 0, 0⟩, ⟨1, 0, 0⟩], 2, [true, true], false⟩
    ⟨true, some (.arr [1]), "walk"⟩ rfl
  exact ⟨h.1, h.2.1⟩

/-! ### C10: requestMotion (main.js lines 956-1012) -/

/-- The `tracking` sub-capability of a policy runner. -/
structure TrackingM where
  motionNames : List String
  requestAccept : Bool
  hasForceStart : Bool
deriving DecidableEq, Repr

/-- A policy runner as `requestMotion` sees it. -/
structure RunnerM where
  tracking : Option TrackingM
deriving DecidableEq, Repr

/-- The parts of the demo instance `requestMotion` consults. -/
structure MotionCtx where
  mappingsLen : ℕ
  policyRunners : List RunnerM
  policyRunner : Option RunnerM
deriving DecidableEq, Repr

/-- The `robotIndex` argument: `null`, a number, or some other value. -/
inductive RobotIndexArg where
  | null
  | num (x : JSNum)
  | nonNum
deriving DecidableEq, Repr

/-- Lines 957-960: the runner list `requestMotion` operates on. -/
def runnersOf (ctx : MotionCtx) : List RunnerM :=
  if 1 < ctx.mappingsLen ∧ 0 < ctx.policyRunners.length then ctx.policyRunners
  else
    match ctx.policyRunner with
    | some r => [r]
    | none => []

/-- Lines 966-991: dispatch the named motion to robot `idx`: fails when the
runner has no tracking capability or the motion name is unknown; a forced
request uses the force-start entry point when available, otherwise the
gated `tracking.requestMotion` decides. -/
def applyToRobot (runners : List RunnerM) (nm : String) (force : Bool)
    (idx : ℕ) : Bool :=
  match (runners.getD idx ⟨none⟩).tracking with
  | none => false
  | some tr =>
    if nm ∈ tr.motionNames then
      if force ∧ tr.hasForceStart then true else tr.requestAccept
    else false

/-- Lines 956-1012: `requestMotion(name, robotIndex, force)`.  Returns the
accepted flag and the list of robot indices actually dispatched to. -/
def requestMotionM (ctx : MotionCtx) (name : Option String)
    (robotIndex : RobotIndexArg) (force : Bool) : Bool × List ℕ :=
  let runners := runnersOf ctx
  if name = none ∨ name = some "" ∨ runners.length = 0 then (false, [])
  else
    match name with
    | none => (false, [])
    | some nm =>
      match robotIndex with
      | .null =>
        (((List.range runners.length).map (applyToRobot runners nm force)).all
          id, List.range runners.length)
      | .num x =>
        match x with
        | .fin q =>
          let idx := (max 0 (min ⌊q⌋ ((runners.length : ℤ) - 1))).toNat
          (applyToRobot runners nm force idx, [idx])
        | _ => (false, [])
      | .nonNum => (false, [])

/-- **C10.**  With a non-empty string name, at least one attached runner
and a finite numeric `robotIndex`, the index is floored and clamped into
`[0, runners − 1]` before dispatch, so an out-of-range index is routed to
the nearest valid robot; and `requestMotion` returns `false` without
dispatching exactly when the name is not a non-empty string, no runner is
attached, or a non-null `robotIndex` is not a finite number. -/
theorem C10_requestMotion_clamps :
    (∀ (ctx : MotionCtx) (nm : String) (q : ℚ) (force : Bool),
        nm ≠ "" → 1 ≤ (runnersOf ctx).length →
        (requestMotionM ctx (some nm) (.num (.fin q)) force).2 =
            [(max 0 (min ⌊q⌋ (((runnersOf ctx).length : ℤ) - 1))).toNat] ∧
          (max 0 (min ⌊q⌋ (((runnersOf ctx).length : ℤ) - 1))).toNat <
            (runnersOf ctx).length)
    ∧ (∀ (ctx : MotionCtx) (name : Option String) (ri : RobotIndexArg)
        (force : Bool),
        ((requestMotionM ctx name ri force).1 = false ∧
            (requestMotionM ctx name ri force).2 = []) ↔
          (name = none ∨ name = some "" ∨ (runnersOf ctx).length = 0 ∨
            (∃ x, ri = .num x ∧ x.isFinite = false) ∨ ri = .nonNum)) := by
  constructor
  · intro ctx nm q force hnm hlen
    have hgate : ¬ (some nm = none ∨ some nm = some "" ∨
        (runnersOf ctx).length = 0) := by
      push_neg
      refine ⟨by simp, by simp [hnm], by omega⟩
    constructor
    · unfold requestMotionM
      rw [if_neg hgate]
    · have hmin : min ⌊q⌋ (((runnersOf ctx).length : ℤ) - 1) ≤
          ((runnersOf ctx).length : ℤ) - 1 := min_le_right _ _
      omega
  · intro ctx name ri force
    unfold requestMotionM
    by_cases hgate : name = none ∨ name = some "" ∨ (runnersOf ctx).length = 0
    · rw [if_pos hgate]
      constructor
      · intro _
        rcases hgate with h | h | h
        · exact Or.inl h
        · exact Or.inr (Or.inl h)
        · exact Or.inr (Or.inr (Or.inl h))
      · intro _
        exact ⟨rfl, rfl⟩
    · rw [if_neg hgate]
      push_neg at hgate
      obtain ⟨hn0, hne, hlen⟩ := hgate
      cases name with
      | none => exact absurd rfl hn0
      | some nm =>
        cases ri with
        | null =>
          constructor
          · intro h
            have h2 : List.range (runnersOf ctx).length = [] := h.2
            rw [List.range_eq_nil] at h2
            exact absurd h2 hlen
          · rintro (h | h | h | ⟨x, hx, _⟩ | h)
            · exact absurd h hn0
            · exact absurd h hne
            · exact absurd h hlen
            · cases hx
            · cases h
        | num x =>
          cases x with
          | fin q =>
            constructor
            · intro h
              have h2 :
                  [(max 0 (min ⌊q⌋ (((runnersOf ctx).length : ℤ) - 1))).toNat]
                    = ([] : List ℕ) := h.2
              cases h2
            · rintro (h | h | h | ⟨y, hy, hfin⟩ | h)
              · exact absurd h hn0
              · exact absurd h hne
              · exact absurd h hlen
              · have hy' : JSNum.fin q = y := by injection hy
                rw [← hy'] at hfin
                cases hfin
              · cases h
          | posInf =>
            exact ⟨fun _ => Or.inr (Or.inr (Or.inr (Or.inl ⟨.posInf, rfl, rfl⟩))),
              fun _ => ⟨rfl, rfl⟩⟩
          | negInf =>
            exact ⟨fun _ => Or.inr (Or.inr (Or.inr (Or.inl ⟨.negInf, rfl, rfl⟩))),
              fun _ => ⟨rfl, rfl⟩⟩
          | nan =>
            exact ⟨fun _ => Or.inr (Or.inr (Or.inr (Or.inl ⟨.nan, rfl, rfl⟩))),
              fun _ => ⟨rfl, rfl⟩⟩
        | nonNum =>
          exact ⟨fun _ => Or.inr (Or.inr (Or.inr (Or.inr rfl))),
            fun _ => ⟨rfl, rfl⟩⟩

/-- A two-runner motion context for the C10 witness. -/
def motionCtxW : MotionCtx :=
  { mappingsLen := 2
    policyRunners := [⟨some ⟨["walk"], true, false⟩⟩, ⟨some ⟨["walk"], true, false⟩⟩]
    policyRunner := none }

theorem C10_requestMotion_clamps_witness :
    (requestMotionM motionCtxW (some "walk") (.num (.fin 7)) false).2 =
        [(max 0 (min ⌊(7 : ℚ)⌋ (((runnersOf motionCtxW).length : ℤ) - 1))).toNat] ∧
      (max 0 (min ⌊(7 : ℚ)⌋ (((runnersOf motionCtxW).length : ℤ) - 1))).toNat <
        (runnersOf motionCtxW).length :=
  C10_requestMotion_clamps.1 motionCtxW "walk" 7 false (by decide) (by decide)

/-! ### The multi-robot XML generator (main.js lines 1205-1390)

XML text is a `List Char`.  Each JS regex replace is modelled by an
explicit scanner with the same matching semantics: leftmost match,
scanning resumes after the end of a match (`/g`), one character of
progress on failure.  `\s` is modelled by the ASCII whitespace
characters. -/

/-- The `\s` character class (ASCII part). -/
def wsChar (c : Char) : Bool :=
  c = ' ' || c = '\t' || c = '\n' || c = '\r' ||
    c = Char.ofNat 11 || c = Char.ofNat 12

/-- `name="` -/
def nameEqLit : List Char := "name=\"".data

/-- `joint="` -/
def jointEqLit : List Char := "joint=\"".data

/-- `String.indexOf(pat)`: index of the first occurrence, `none` for -1. -/
def indexOfAux (pat : List Char) : List Char → Option ℕ
  | [] => none
  | c :: rest =>
    if pat.isPrefixOf (c :: rest) then some 0
    else (indexOfAux pat rest).map (· + 1)

/-- `String.indexOf(pat, start)`. -/
def indexOfFrom (pat s : List Char) (start : ℕ) : Option ℕ :=
  (indexOfAux pat (s.drop start)).map (· + start)

/-- `String.substring(a, b)` (swapping the arguments when `a > b`). -/
def substringJS (s : List Char) (a b : ℕ) : List Char :=
  if a ≤ b then (s.drop a).take (b - a) else (s.drop b).take (a - b)

/-- Lines 1232-1250: the depth-counted scan for the end of the pelvis
body's sub-tree, run on the text starting at the anchor: `<body` opens a
level, `</body>` closes one, and once the depth returns to zero the index
one past the closing tag is returned. -/
def findBodyEndAux : List Char → ℤ → Bool → ℕ → Option ℕ
  | [], _, _, _ => none
  | c :: rest, depth, started, i =>
    if ("<body".data).isPrefixOf (c :: rest) then
      findBodyEndAux rest (depth + 1) (started || i == 0) (i + 1)
    else if ("</body>".data).isPrefixOf (c :: rest) then
      if started && (depth - 1 == 0) then some (i + 7)
      else findBodyEndAux rest (depth - 1) started (i + 1)
    else findBodyEndAux rest depth started (i + 1)

/-- The depth-counted extent of the body sub-tree starting at position 0
of `s` (the anchor's start). -/
def findBodyEnd (s : List Char) : Option ℕ :=
  findBodyEndAux s 0 false 0

/-- The tail of a `[^"]*"` match: the capture up to the first quote, the
closing quote, and the remainder. -/
def capQuote (a : List Char) : Option (List Char × List Char) :=
  match a.drop ((a.takeWhile (fun c => !(c = '"'))).length) with
  | '"' :: rest => some (a.takeWhile (fun c => !(c = '"')), rest)
  | _ => none

lemma capQuote_length {a cap rest : List Char}
    (h : capQuote a = some (cap, rest)) : rest.length < a.length := by
  unfold capQuote at h
  split at h
  next rest' heq =>
    simp only [Option.some.injEq, Prod.mk.injEq] at h
    obtain ⟨-, hrest⟩ := h
    subst hrest
    have h1 := congrArg List.length heq
    rw [List.length_drop, List.length_cons] at h1
    have h2 : ((a.takeWhile (fun c => !(c = '"'))).length) ≤ a.length :=
      (List.takeWhile_sublist _).length_le
    omega
  next => cases h

/-- A match of `TAG\s+name="([^"]*)"` at the head of `s`: returns the
captured name and the remainder after the closing quote. -/
def tagMatchAt (tag : List Char) (s : List Char) :
    Option (List Char × List Char) :=
  if tag.isPrefixOf s then
    if ((s.drop tag.length).takeWhile wsChar).isEmpty then none
    else
      if nameEqLit.isPrefixOf ((s.drop tag.length).drop
          ((s.drop tag.length).takeWhile wsChar).length) then
        capQuote (((s.drop tag.length).drop
          ((s.drop tag.length).takeWhile wsChar).length).drop nameEqLit.length)
      else none
  else none

lemma tagMatchAt_length {tag s cap rest : List Char}
    (h : tagMatchAt tag s = some (cap, rest)) : rest.length < s.length := by
  unfold tagMatchAt at h
  split at h
  case isFalse => cases h
  split at h
  case isTrue => cases h
  split at h
  case isFalse => cases h
  have h1 := capQuote_length h
  have h2 : ∀ (n : ℕ) (l : List Char), (l.drop n).length ≤ l.length := by
    intro n l
    rw [List.length_drop]
    omega
  calc rest.length
      < _ := h1
    _ ≤ _ := h2 _ _
    _ ≤ _ := h2 _ _
    _ ≤ s.length := h2 _ _

/-- One pass of `/TAG\s+name="([^"]*)"/g` replaced by
`` `TAG name="${pfx}${name}"` ``: an unguarded rename of every matched
`name` attribute (used for `<body>`, `<joint>`, `<freejoint>`, `<site>`
and `<motor>` names — main.js lines 1331-1347 and 1376-1378). -/
def renameTag (tag pfx : List Char) : List Char → List Char
  | [] => []
  | c :: rest =>
    match h : tagMatchAt tag (c :: rest) with
    | some (cap, after) =>
      tag ++ ' ' :: (nameEqLit ++ (pfx ++ (cap ++ '"' ::
        renameTag tag pfx after)))
    | none => c :: renameTag tag pfx rest
termination_by s => s.length
decreasing_by
  · exact tagMatchAt_length h
  · simp

/-- The anchor-position marker `` `<body name="${bodyName}" pos="` ``. -/
def bodyPosMarker (bodyName : List Char) : List Char :=
  "<body name=\"".data ++ bodyName ++ "\" pos=\"".data

/-- A match of `` `<body name="${bodyName}" pos="[^"]*"` `` at the head of
`s`: returns the remainder after the closing quote. -/
def posMatchAt (marker : List Char) (s : List Char) : Option (List Char) :=
  if marker.isPrefixOf s then
    (capQuote (s.drop marker.length)).map (·.2)
  else none

lemma posMatchAt_length {marker s rest : List Char}
    (h : posMatchAt marker s = some rest) : rest.length < s.length := by
  unfold posMatchAt at h
  split at h
  case isFalse => cases h
  rcases hq : capQuote (s.drop marker.length) with _ | ⟨cap, rest'⟩
  · rw [hq] at h
    cases h
  · rw [hq] at h
    simp only [Option.map_some', Option.some.injEq] at h
    subst h
    calc rest'.length
        < (s.drop marker.length).length := capQuote_length hq
      _ ≤ s.length := by
          rw [List.length_drop]
          omega

/-- `/<body name="${bodyName}" pos="[^"]*"/g` replaced by the marker with
the new position (main.js lines 1217-1220, 1324-1325 and 1361-1363). -/
def replaceBodyPos (bodyName pos : List Char) : List Char → List Char
  | [] => []
  | c :: rest =>
    match h : posMatchAt (bodyPosMarker bodyName) (c :: rest) with
    | some after =>
      bodyPosMarker bodyName ++ (pos ++ '"' ::
        replaceBodyPos bodyName pos after)
    | none => c :: replaceBodyPos bodyName pos rest
termination_by s => s.length
decreasing_by
  · exact posMatchAt_length h
  · simp

/-- Feasibility of the optional-group split at offset `q` for
`` `TAG\s+([^>]*\s+)?ATTR="` ``: the segment before the attribute literal is
non-empty, starts and ends in whitespace, contains no `>` (it lies within
`run`), the attribute literal follows, and a closing quote exists after the
`[^"]*` capture. -/
def guardQFeasible (attrLit : List Char) (a run : List Char) (q : ℕ) : Bool :=
  decide (0 < q) && decide (q ≤ run.length) &&
    wsChar (run.headD 'x') && wsChar (run.getD (q - 1) 'x') &&
    attrLit.isPrefixOf (a.drop q) &&
    !((a.drop (q + attrLit.length)).drop
        (((a.drop (q + attrLit.length)).takeWhile
          (fun c => !(c = '"'))).length)).isEmpty

/-- The regex engine's backtracking picks the largest feasible split
(greedy `[^>]*` group). -/
def guardFindQ (attrLit : List Char) (a run : List Char) : ℕ → Option ℕ
  | 0 => none
  | q + 1 =>
    if guardQFeasible attrLit a run (q + 1) then some (q + 1)
    else guardFindQ attrLit a run q

/-- A match of `` `TAG\s+([^>]*\s+)?ATTR="([^"]*)"` `` at the head of `s`:
returns the whole segment between the tag and the attribute literal, the
captured value, and the remainder after the closing quote. -/
def guardMatchAt (openTag attrLit : List Char) (s : List Char) :
    Option (List Char × List Char × List Char) :=
  if openTag.isPrefixOf s then
    match guardFindQ attrLit (s.drop openTag.length)
        ((s.drop openTag.length).takeWhile (fun c => !(c = '>')))
        ((s.drop openTag.length).takeWhile (fun c => !(c = '>'))).length with
    | none => none
    | some q =>
      (capQuote ((s.drop openTag.length).drop (q + attrLit.length))).map
        (fun p => ((s.drop openTag.length).take q, p.1, p.2))
  else none

lemma guardMatchAt_length {openTag attrLit s seg cap rest : List Char}
    (h : guardMatchAt openTag attrLit s = some (seg, cap, rest)) :
    rest.length < s.length := by
  unfold guardMatchAt at h
  split at h
  case isFalse => cases h
  split at h
  · cases h
  next q hq =>
    rcases hc : capQuote ((s.drop openTag.length).drop (q + attrLit.length))
        with _ | ⟨cap', rest'⟩
    · rw [hc] at h
      cases h
    · rw [hc] at h
      simp only [Option.map_some', Option.some.injEq, Prod.mk.injEq] at h
      obtain ⟨-, -, hrest⟩ := h
      subst hrest
      have h1 := capQuote_length hc
      have h2 : ∀ (n : ℕ) (l : List Char), (l.drop n).length ≤ l.length := by
        intro n l
        rw [List.length_drop]
        omega
      calc rest'.length
          < _ := h1
        _ ≤ _ := h2 _ _
        _ ≤ s.length := h2 _ _

/-- `/TAG\s+([^>]*\s+)?ATTR="([^"]*)"/g` with the idempotence guard of
main.js lines 1350-1356 and 1381-1387: a captured value that already
starts with the prefix leaves the whole match unchanged; otherwise the
match is rewritten to `` `TAG ${before}ATTR="${pfx}${value}"` `` (which
collapses the leading whitespace run of the segment to a single space,
exactly as the regex replacement does). -/
def renameGuarded (openTag attrLit pfx : List Char) : List Char → List Char
  | [] => []
  | c :: rest =>
    match h : guardMatchAt openTag attrLit (c :: rest) with
    | some (seg, cap, after) =>
      if pfx.isPrefixOf cap then
        openTag ++ (seg ++ (attrLit ++ (cap ++ '"' ::
          renameGuarded openTag attrLit pfx after)))
      else
        openTag ++ ' ' :: (seg.drop ((seg.takeWhile wsChar).length) ++
          (attrLit ++ (pfx ++ (cap ++ '"' ::
            renameGuarded openTag attrLit pfx after))))
    | none => c :: renameGuarded openTag attrLit pfx rest
termination_by s => s.length
decreasing_by
  · exact guardMatchAt_length h
  · exact guardMatchAt_length h
  · simp

/-- A decimal rendering of a rational coordinate.  (JS prints numbers in
decimal notation; any rendering free of `"`, `<` and `>` is equivalent for
the structure of the generated scene.) -/
def renderRat (q : ℚ) : List Char :=
  (if q < 0 then ['-'] else []) ++ (Nat.repr q.num.natAbs).data ++
    (if q.den = 1 then [] else '/' :: (Nat.repr q.den).data)

/-- `` `${config.x} ${config.y} ${config.z}` `` -/
def posAttr (cfg : RobotSpawnConfig) : List Char :=
  renderRat cfg.x ++ ' ' :: (renderRat cfg.y ++ ' ' :: renderRat cfg.z)

/-- `index === 0 ? '' : \`robot${index + 1}_\`` -/
def robotId (i : ℕ) : List Char :=
  if i = 0 then [] else "robot".data ++ (Nat.repr (i + 1)).data ++ ['_']

/-- Lines 1318-1367: clone the pelvis sub-tree for one robot.  Robot 1
(empty prefix) only gets its position rewritten; a cloned robot has every
`<body>`, `<joint>`, `<freejoint>` and `<site>` name prefixed
unconditionally, every `<geom>` name prefixed under the idempotence guard,
and finally its (renamed) anchor's position attribute rewritten. -/
def addPrefixToRobotBody (bodyContent : List Char) (pfx : List Char)
    (cfg : RobotSpawnConfig) : List Char :=
  if pfx = [] then
    replaceBodyPos ("pelvis".data) (posAttr cfg) bodyContent
  else
    let b1 := renameTag ("<body".data) pfx bodyContent
    let b2 := renameTag ("<joint".data) pfx b1
    let b3 := renameTag ("<freejoint".data) pfx b2
    let b4 := renameTag ("<site".data) pfx b3
    let b5 := renameGuarded ("<geom".data) nameEqLit pfx b4
    replaceBodyPos (pfx ++ "pelvis".data) (posAttr cfg) b5

/-- Lines 1372-1390: prefix every `<motor>` name (unguarded) and every
`<motor>` joint reference (guarded). -/
def addPrefixToMotors (motorsContent pfx : List Char) : List Char :=
  renameGuarded ("<motor".data) jointEqLit pfx
    (renameTag ("<motor".data) pfx motorsContent)

/-- The generator's failure modes. -/
inductive SynthErr where
  | EmptyConfig
  | TooManyRobots
  | AnchorNotFound
  | PelvisEndNotFound
  | ActuatorNotFound
  | MotorsNotFound
  | ActuatorEndNotFound
deriving DecidableEq, Repr

/-- `'\n        '` appended after each cloned robot body (line 1290). -/
def sepAfterBody : List Char := '\n' :: "        ".data

/-- Lines 1205-1313: `generateMultiRobotXML` (with the template text passed
in place of the `fetch`).  A single config only rewrites the anchor's
position.  Otherwise the anchor sub-tree is located by `indexOf` plus the
depth-counted scan, the motor block by `indexOf`, and the output is the
preamble, the per-config clones, the middle section, the per-config motor
groups, and the remainder. -/
def generateMultiRobotXML (xml : List Char) (cfgs : List RobotSpawnConfig) :
    Except SynthErr (List Char) :=
  match cfgs with
  | [c] => .ok (replaceBodyPos ("pelvis".data) (posAttr c) xml)
  | _ =>
    match indexOfAux ("<body name=\"pelvis\"".data) xml with
    | none => .error .AnchorNotFound
    | some pStart =>
      match findBodyEnd (xml.drop pStart) with
      | none => .error .PelvisEndNotFound
      | some subLen =>
        let pEnd := pStart + subLen
        let pelvisBody := substringJS xml pStart pEnd
        match indexOfAux ("<actuator>".data) xml with
        | none => .error .ActuatorNotFound
        | some aStart =>
          match indexOfFrom ("<motor name=\"".data) xml aStart with
          | none => .error .MotorsNotFound
          | some mStart =>
            match indexOfAux ("</actuator>".data) xml with
            | none => .error .ActuatorEndNotFound
            | some aEnd =>
              let motorsContent := substringJS xml mStart aEnd
              let robots := (cfgs.enum.map (fun p =>
                addPrefixToRobotBody pelvisBody (robotId p.1) p.2 ++
                  sepAfterBody)).flatten
              let motorsAll := (cfgs.enum.map (fun p =>
                if p.1 = 0 then motorsContent
                else addPrefixToMotors motorsContent (robotId p.1))).flatten
              .ok (substringJS xml 0 pStart ++ robots ++
                substringJS xml pEnd mStart ++ motorsAll ++ xml.drop aEnd)

/-- Lines 225-245: `generateMultiRobotScene` — the precondition checks,
then XML generation; the `.ok` payload is exactly what is written to the
physics backing store, so an error commits nothing. -/
def generateMultiRobotScene (template : List Char)
    (cfgs : List RobotSpawnConfig) : Except SynthErr (List Char) :=
  if cfgs.length = 0 then .error .EmptyConfig
  else if 11 < cfgs.length then .error .TooManyRobots
  else generateMultiRobotXML template cfgs

lemma generateMultiRobotXML_not_config_error (xml : List Char)
    (cfgs : List RobotSpawnConfig) :
    generateMultiRobotXML xml cfgs ≠ .error .EmptyConfig ∧
      generateMultiRobotXML xml cfgs ≠ .error .TooManyRobots := by
  constructor <;>
    (intro h
     unfold generateMultiRobotXML at h
     repeat' split at h
     all_goals simp_all)

/-- **C6.**  Scene synthesis fails before producing any output whenever the
spawn config sequence is empty (`EmptyConfig`) or longer than 11
(`TooManyRobots`), and for every length in `[1, 11]` these precondition
checks pass (the result is never one of the two precondition errors).  In
the `Except` model the `.ok` payload is the only thing written to the
physics backing store, so a failure commits no partial scene. -/
theorem C6_synthesis_preconditions (template : List Char)
    (cfgs : List RobotSpawnConfig) :
    (cfgs.length = 0 → generateMultiRobotScene template cfgs =
        .error .EmptyConfig) ∧
      (11 < cfgs.length → generateMultiRobotScene template cfgs =
        .error .TooManyRobots) ∧
      (1 ≤ cfgs.length → cfgs.length ≤ 11 →
        generateMultiRobotScene template cfgs ≠ .error .EmptyConfig ∧
          generateMultiRobotScene template cfgs ≠ .error .TooManyRobots) := by
  refine ⟨?_, ?_, ?_⟩
  · intro h
    unfold generateMultiRobotScene
    rw [if_pos h]
  · intro h
    unfold generateMultiRobotScene
    rw [if_neg (by omega), if_pos h]
  · intro h1 h2
    unfold generateMultiRobotScene
    rw [if_neg (by omega), if_neg (by omega)]
    exact generateMultiRobotXML_not_config_error template cfgs

theorem C6_synthesis_preconditions_witness :
    generateMultiRobotScene [] [] = .error .EmptyConfig ∧
      generateMultiRobotScene [] (List.replicate 12 ⟨0, 0, 0⟩) =
        .error .TooManyRobots ∧
      (generateMultiRobotScene [] (List.replicate 3 ⟨0, 0, 0⟩) ≠
          .error .EmptyConfig ∧
        generateMultiRobotScene [] (List.replicate 3 ⟨0, 0, 0⟩) ≠
          .error .TooManyRobots) :=
  ⟨(C6_synthesis_preconditions [] []).1 rfl,
    (C6_synthesis_preconditions [] (List.replicate 12 ⟨0, 0, 0⟩)).2.1
      (by decide),
    (C6_synthesis_preconditions [] (List.replicate 3 ⟨0, 0, 0⟩)).2.2
      (by decide) (by decide)⟩

/-! ### Generic facts about the scanners -/

lemma isPrefixOf_append_self (l t : List Char) : l.isPrefixOf (l ++ t) = true := by
  rw [List.isPrefixOf_iff_prefix]
  exact List.prefix_append l t

lemma isPrefixOf_mono_append {p m : List Char} (h : p.isPrefixOf m = true)
    (X : List Char) : p.isPrefixOf (m ++ X) = true := by
  rw [List.isPrefixOf_iff_prefix] at h ⊢
  exact h.trans (List.prefix_append m X)

lemma isPrefixOf_append_take {p m X : List Char}
    (h : p.isPrefixOf (m ++ X) = true) :
    (p.take m.length).isPrefixOf m = true := by
  rw [List.isPrefixOf_iff_prefix] at h ⊢
  have h1 := h.take m.length
  rw [List.take_left] at h1
  exact h1

lemma isPrefixOf_append_false {p m : List Char} (X : List Char)
    (h : (p.take m.length).isPrefixOf m = false) :
    p.isPrefixOf (m ++ X) = false := by
  by_contra hc
  rw [Bool.not_eq_false] at hc
  rw [isPrefixOf_append_take hc] at h
  cases h

lemma eq_append_drop_of_isPrefixOf {p s : List Char}
    (h : p.isPrefixOf s = true) : s = p ++ s.drop p.length := by
  rw [List.isPrefixOf_iff_prefix] at h
  obtain ⟨t, ht⟩ := h
  subst ht
  rw [List.drop_left]

lemma takeWhile_append_cons (p : Char → Bool) (xs : List Char) (c : Char)
    (ys : List Char) (hx : xs.all p = true) (hc : p c = false) :
    (xs ++ c :: ys).takeWhile p = xs := by
  induction xs with
  | nil => simp [List.takeWhile_cons, hc]
  | cons a t ih =>
    rw [List.all_cons, Bool.and_eq_true] at hx
    simp [List.takeWhile_cons, hx.1, ih hx.2]

lemma capQuote_fire (attr suf : List Char)
    (hattr : attr.all (fun c => !(c = '"')) = true) :
    capQuote (attr ++ '"' :: suf) = some (attr, suf) := by
  have htw : (attr ++ '"' :: suf).takeWhile (fun c => !(c = '"')) = attr :=
    takeWhile_append_cons _ _ _ _ hattr (by simp)
  unfold capQuote
  rw [htw, List.drop_left]
  rfl

lemma dropWhile_eq_drop_takeWhile (p : Char → Bool) (l : List Char) :
    l.dropWhile p = l.drop (l.takeWhile p).length := by
  induction l with
  | nil => rfl
  | cons c rest ih =>
    by_cases h : p c
    · simp [List.dropWhile_cons, List.takeWhile_cons, h, ih]
    · simp [List.dropWhile_cons, List.takeWhile_cons, h]

lemma capQuote_decomp {a cap rest : List Char}
    (h : capQuote a = some (cap, rest)) : a = cap ++ '"' :: rest := by
  unfold capQuote at h
  split at h
  next rest' heq =>
    simp only [Option.some.injEq, Prod.mk.injEq] at h
    obtain ⟨hcap, hrest⟩ := h
    subst hcap
    subst hrest
    conv_lhs => rw [← List.takeWhile_append_dropWhile (fun c => !(c = '"')) a]
    rw [dropWhile_eq_drop_takeWhile, heq]
  next => cases h

/-- No scanner match starts anywhere in `s`. -/
def noMatchScan {β : Type} (f : List Char → Option β) : List Char → Bool
  | [] => true
  | c :: rest => (f (c :: rest)).isNone && noMatchScan f rest

/-- No scanner match starts within the `pre` portion of `pre ++ tail`. -/
def noMatchThrough {β : Type} (f : List Char → Option β) :
    List Char → List Char → Bool
  | [], _ => true
  | c :: rest, tail =>
    (f (c :: rest ++ tail)).isNone && noMatchThrough f rest tail

/-! ### Stepping the position rewriter -/

lemma bodyPosMarker_ne_nil (bodyName : List Char) :
    bodyPosMarker bodyName ≠ [] := by
  unfold bodyPosMarker
  intro h
  have := congrArg List.length h
  simp at this

lemma posMatchAt_nil (marker : List Char) (hm : marker ≠ []) :
    posMatchAt marker [] = none := by
  unfold posMatchAt
  rw [if_neg]
  intro hc
  rw [List.isPrefixOf_iff_prefix, List.prefix_nil] at hc
  exact hm hc

lemma replaceBodyPos_fire {bodyName s after : List Char} (pos : List Char)
    (h : posMatchAt (bodyPosMarker bodyName) s = some after) :
    replaceBodyPos bodyName pos s =
      bodyPosMarker bodyName ++ (pos ++ '"' ::
        replaceBodyPos bodyName pos after) := by
  cases s with
  | nil => rw [posMatchAt_nil _ (bodyPosMarker_ne_nil bodyName)] at h; cases h
  | cons c rest =>
    rw [replaceBodyPos]
    rw [h]

lemma replaceBodyPos_skip {bodyName : List Char} (pos : List Char)
    {c : Char} {rest : List Char}
    (h : posMatchAt (bodyPosMarker bodyName) (c :: rest) = none) :
    replaceBodyPos bodyName pos (c :: rest) =
      c :: replaceBodyPos bodyName pos rest := by
  rw [replaceBodyPos]
  rw [h]

lemma replaceBodyPos_copy {bodyName : List Char} (pos : List Char)
    {s : List Char}
    (h : noMatchScan (posMatchAt (bodyPosMarker bodyName)) s = true) :
    replaceBodyPos bodyName pos s = s := by
  induction s with
  | nil => rw [replaceBodyPos]
  | cons c rest ih =>
    rw [noMatchScan, Bool.and_eq_true] at h
    rw [replaceBodyPos_skip pos (Option.isNone_iff_eq_none.1 h.1), ih h.2]

lemma replaceBodyPos_append {bodyName : List Char} (pos : List Char)
    {pre tail : List Char}
    (h : noMatchThrough (posMatchAt (bodyPosMarker bodyName)) pre tail = true) :
    replaceBodyPos bodyName pos (pre ++ tail) =
      pre ++ replaceBodyPos bodyName pos tail := by
  induction pre with
  | nil => rfl
  | cons c rest ih =>
    rw [noMatchThrough, Bool.and_eq_true] at h
    have h1 : posMatchAt (bodyPosMarker bodyName) (c :: (rest ++ tail)) = none :=
      Option.isNone_iff_eq_none.1 h.1
    rw [List.cons_append, replaceBodyPos_skip pos h1, ih h.2]
    rfl

lemma posMatchAt_fire (bodyName attr suf : List Char)
    (hattr : attr.all (fun c => !(c = '"')) = true) :
    posMatchAt (bodyPosMarker bodyName)
      (bodyPosMarker bodyName ++ (attr ++ '"' :: suf)) = some suf := by
  unfold posMatchAt
  rw [if_pos (isPrefixOf_append_self ..), List.drop_left,
    capQuote_fire attr suf hattr]
  rfl

/-! ### Stepping the unguarded tag rename -/

lemma tagMatchAt_nil (tag : List Char) :
    tagMatchAt tag [] = none := by
  unfold tagMatchAt
  by_cases h : tag.isPrefixOf ([] : List Char) = true
  · rw [if_pos h]
    rw [List.isPrefixOf_iff_prefix, List.prefix_nil] at h
    subst h
    rfl
  · rw [if_neg h]

lemma renameTag_fire {tag s cap after : List Char} (pfx : List Char)
    (h : tagMatchAt tag s = some (cap, after)) :
    renameTag tag pfx s =
      tag ++ ' ' :: (nameEqLit ++ (pfx ++ (cap ++ '"' ::
        renameTag tag pfx after))) := by
  cases s with
  | nil => rw [tagMatchAt_nil] at h; cases h
  | cons c rest =>
    rw [renameTag]
    rw [h]

lemma renameTag_skip {tag : List Char} (pfx : List Char) {c : Char}
    {rest : List Char} (h : tagMatchAt tag (c :: rest) = none) :
    renameTag tag pfx (c :: rest) = c :: renameTag tag pfx rest := by
  rw [renameTag]
  rw [h]

lemma renameTag_copy {tag : List Char} (pfx : List Char) {s : List Char}
    (h : noMatchScan (tagMatchAt tag) s = true) :
    renameTag tag pfx s = s := by
  induction s with
  | nil => rw [renameTag]
  | cons c rest ih =>
    rw [noMatchScan, Bool.and_eq_true] at h
    rw [renameTag_skip pfx (Option.isNone_iff_eq_none.1 h.1), ih h.2]

lemma renameTag_append {tag : List Char} (pfx : List Char)
    {pre tail : List Char}
    (h : noMatchThrough (tagMatchAt tag) pre tail = true) :
    renameTag tag pfx (pre ++ tail) = pre ++ renameTag tag pfx tail := by
  induction pre with
  | nil => rfl
  | cons c rest ih =>
    rw [noMatchThrough, Bool.and_eq_true] at h
    have h1 : tagMatchAt tag (c :: (rest ++ tail)) = none :=
      Option.isNone_iff_eq_none.1 h.1
    rw [List.cons_append, renameTag_skip pfx h1, ih h.2]
    rfl

lemma tagMatchAt_fire (tag ws cap rest : List Char) (hwsne : ws ≠ [])
    (hws : ws.all wsChar = true)
    (hcap : cap.all (fun c => !(c = '"')) = true) :
    tagMatchAt tag (tag ++ (ws ++ (nameEqLit ++ (cap ++ '"' :: rest)))) =
      some (cap, rest) := by
  unfold tagMatchAt
  rw [if_pos (isPrefixOf_append_self ..), List.drop_left]
  have htw : (ws ++ (nameEqLit ++ (cap ++ '"' :: rest))).takeWhile wsChar = ws := by
    have : nameEqLit ++ (cap ++ '"' :: rest) = 'n' ::
        ("ame=\"".data ++ (cap ++ '"' :: rest)) := rfl
    rw [this]
    exact takeWhile_append_cons _ _ _ _ hws (by decide)
  rw [htw, if_neg (by simp [List.isEmpty_iff, hwsne]), List.drop_left,
    if_pos (isPrefixOf_append_self ..), List.drop_left,
    capQuote_fire cap rest hcap]

/-! ### Stepping the guarded attribute rename -/

lemma guardMatchAt_nil (openTag attrLit : List Char) :
    guardMatchAt openTag attrLit [] = none := by
  unfold guardMatchAt
  by_cases h : openTag.isPrefixOf ([] : List Char) = true
  · rw [if_pos h]
    rw [List.isPrefixOf_iff_prefix, List.prefix_nil] at h
    subst h
    rfl
  · rw [if_neg h]

lemma renameGuarded_fire_guard {openTag attrLit s seg cap after : List Char}
    (pfx : List Char)
    (h : guardMatchAt openTag attrLit s = some (seg, cap, after))
    (hg : pfx.isPrefixOf cap = true) :
    renameGuarded openTag attrLit pfx s =
      openTag ++ (seg ++ (attrLit ++ (cap ++ '"' ::
        renameGuarded openTag attrLit pfx after))) := by
  cases s with
  | nil => rw [guardMatchAt_nil] at h; cases h
  | cons c rest =>
    rw [renameGuarded]
    rw [h]
    simp only [hg, if_true]

lemma renameGuarded_fire_rename {openTag attrLit s seg cap after : List Char}
    (pfx : List Char)
    (h : guardMatchAt openTag attrLit s = some (seg, cap, after))
    (hg : pfx.isPrefixOf cap = false) :
    renameGuarded openTag attrLit pfx s =
      openTag ++ ' ' :: (seg.drop ((seg.takeWhile wsChar).length) ++
        (attrLit ++ (pfx ++ (cap ++ '"' ::
          renameGuarded openTag attrLit pfx after)))) := by
  cases s with
  | nil => rw [guardMatchAt_nil] at h; cases h
  | cons c rest =>
    rw [renameGuarded]
    rw [h]
    simp only [hg, Bool.false_eq_true, if_false]

lemma renameGuarded_skip {openTag attrLit : List Char} (pfx : List Char)
    {c : Char} {rest : List Char}
    (h : guardMatchAt openTag attrLit (c :: rest) = none) :
    renameGuarded openTag attrLit pfx (c :: rest) =
      c :: renameGuarded openTag attrLit pfx rest := by
  rw [renameGuarded]
  rw [h]

lemma renameGuarded_copy {openTag attrLit : List Char} (pfx : List Char)
    {s : List Char}
    (h : noMatchScan (guardMatchAt openTag attrLit) s = true) :
    renameGuarded openTag attrLit pfx s = s := by
  induction s with
  | nil => rw [renameGuarded]
  | cons c rest ih =>
    rw [noMatchScan, Bool.and_eq_true] at h
    rw [renameGuarded_skip pfx (Option.isNone_iff_eq_none.1 h.1), ih h.2]

lemma renameGuarded_append {openTag attrLit : List Char} (pfx : List Char)
    {pre tail : List Char}
    (h : noMatchThrough (guardMatchAt openTag attrLit) pre tail = true) :
    renameGuarded openTag attrLit pfx (pre ++ tail) =
      pre ++ renameGuarded openTag attrLit pfx tail := by
  induction pre with
  | nil => rfl
  | cons c rest ih =>
    rw [noMatchThrough, Bool.and_eq_true] at h
    have h1 : guardMatchAt openTag attrLit (c :: (rest ++ tail)) = none :=
      Option.isNone_iff_eq_none.1 h.1
    rw [List.cons_append, renameGuarded_skip pfx h1, ih h.2]
    rfl

/-- A successful guarded match decomposes its input literally: the input is
the open tag, the segment, the attribute literal, the capture, the closing
quote and the remainder. -/
lemma guardMatchAt_decomp {openTag attrLit s seg cap rest : List Char}
    (h : guardMatchAt openTag attrLit s = some (seg, cap, rest)) :
    s = openTag ++ (seg ++ (attrLit ++ (cap ++ '"' :: rest))) := by
  unfold guardMatchAt at h
  split at h
  case isFalse => cases h
  case isTrue hpre =>
    split at h
    · cases h
    next q hq =>
      rcases hc : capQuote ((s.drop openTag.length).drop (q + attrLit.length))
          with _ | ⟨cap', rest'⟩
      · rw [hc] at h
        cases h
      · rw [hc] at h
        simp only [Option.map_some', Option.some.injEq, Prod.mk.injEq] at h
        obtain ⟨hseg, hcap, hrest⟩ := h
        subst hseg
        subst hcap
        subst hrest
        have hfeas : guardQFeasible attrLit (s.drop openTag.length)
            ((s.drop openTag.length).takeWhile (fun c => !(c = '>'))) q = true := by
          have hmono : ∀ n, guardFindQ attrLit (s.drop openTag.length)
              ((s.drop openTag.length).takeWhile (fun c => !(c = '>'))) n =
                some q →
              guardQFeasible attrLit (s.drop openTag.length)
                ((s.drop openTag.length).takeWhile (fun c => !(c = '>'))) q =
                  true := by
            intro n
            induction n with
            | zero => intro hcontra; cases hcontra
            | succ k ih =>
              intro hk
              rw [guardFindQ] at hk
              split at hk
              next hfq =>
                injection hk with hk
                subst hk
                exact hfq
              next => exact ih hk
          exact hmono _ hq
        unfold guardQFeasible at hfeas
        simp only [Bool.and_eq_true, decide_eq_true_eq] at hfeas
        obtain ⟨⟨⟨⟨⟨-, -⟩, -⟩, -⟩, hal⟩, -⟩ := hfeas
        conv_lhs => rw [eq_append_drop_of_isPrefixOf hpre]
        congr 1
        conv_lhs => rw [← List.take_append_drop q (s.drop openTag.length)]
        congr 1
        rw [eq_append_drop_of_isPrefixOf hal]
        congr 1
        rw [List.drop_drop]
        rw [capQuote_decomp hc]

/-! ### C5: single-robot synthesis rewrites only the anchor position -/

/-- **C5.**  For a spawn config sequence of length exactly 1, synthesis
returns the template with only the anchor body's position attribute
rewritten to the config's coordinates: for every template that decomposes
as `pre ++ <body name="pelvis" pos=" ++ attr ++ " ++ suf` with the single
anchor-position occurrence at that spot (no match starts inside `pre` or
`suf`), the output is byte-for-byte the same text with `attr` replaced by
the rendered coordinates. -/
theorem C5_single_config_position_only
    (pre attr suf : List Char) (c : RobotSpawnConfig)
    (hattr : attr.all (fun ch => !(ch = '"')) = true)
    (hpre : noMatchThrough (posMatchAt (bodyPosMarker ("pelvis".data))) pre
      (bodyPosMarker ("pelvis".data) ++ (attr ++ '"' :: suf)) = true)
    (hsuf : noMatchScan (posMatchAt (bodyPosMarker ("pelvis".data))) suf
      = true) :
    generateMultiRobotXML
        (pre ++ (bodyPosMarker ("pelvis".data) ++ (attr ++ '"' :: suf))) [c]
      = .ok (pre ++ (bodyPosMarker ("pelvis".data) ++
          (posAttr c ++ '"' :: suf))) := by
  have h0 : generateMultiRobotXML
      (pre ++ (bodyPosMarker ("pelvis".data) ++ (attr ++ '"' :: suf))) [c] =
      .ok (replaceBodyPos ("pelvis".data) (posAttr c)
        (pre ++ (bodyPosMarker ("pelvis".data) ++ (attr ++ '"' :: suf)))) :=
    rfl
  rw [h0, replaceBodyPos_append (posAttr c) hpre,
    replaceBodyPos_fire (posAttr c) (posMatchAt_fire _ attr suf hattr),
    replaceBodyPos_copy (posAttr c) hsuf]

theorem C5_single_config_position_only_witness :
    generateMultiRobotXML
        (("<mujoco><worldbody>".data) ++
          (bodyPosMarker ("pelvis".data) ++
            (("0 0 0.8".data) ++ '"' :: (">\n</body></worldbody>".data))))
        [⟨1, 2, 4/5⟩]
      = .ok (("<mujoco><worldbody>".data) ++
          (bodyPosMarker ("pelvis".data) ++
            (posAttr ⟨1, 2, 4/5⟩ ++ '"' :: (">\n</body></worldbody>".data)))) :=
  C5_single_config_position_only ("<mujoco><worldbody>".data)
    ("0 0 0.8".data) (">\n</body></worldbody>".data) ⟨1, 2, 4/5⟩
    (by decide) (by decide) (by decide)

/-! ### C7: the idempotence guard covers only geoms and motor joints -/

/-- Concrete anchor sub-tree for the C7 counterexample. -/
def c7body : List Char := "<body name=\"pelvis\" pos=\"1 2 3\"></body>".data

/-- The robot-2 prefix. -/
def c7pfx : List Char := "robot2_".data

/-- Spawn config used by the C7 counterexample. -/
def c7cfg : RobotSpawnConfig := ⟨5, 6, 7⟩

/-- `addPrefixToRobotBody` applied once to `c7body`. -/
def c7once : List Char :=
  "<body name=\"robot2_pelvis\" pos=\"5 6 7\"></body>".data

/-- `addPrefixToRobotBody` applied twice to `c7body`: the body name is
prefixed again and the position rewrite no longer finds its marker. -/
def c7twice : List Char :=
  "<body name=\"robot2_robot2_pelvis\" pos=\"5 6 7\"></body>".data

lemma c7_once_eq : addPrefixToRobotBody c7body c7pfx c7cfg = c7once := by
  have h1 : renameTag ("<body".data) c7pfx c7body =
      ("<body name=\"robot2_pelvis\"".data) ++
        (" pos=\"1 2 3\"></body>".data) := by
    have hm : tagMatchAt ("<body".data) c7body =
        some ("pelvis".data, (" pos=\"1 2 3\"></body>".data)) := by decide
    rw [renameTag_fire c7pfx hm, renameTag_copy c7pfx
      (show noMatchScan (tagMatchAt ("<body".data))
        ((" pos=\"1 2 3\"></body>".data)) = true by decide)]
    decide
  show replaceBodyPos (c7pfx ++ ("pelvis".data)) (posAttr c7cfg)
      (renameGuarded ("<geom".data) nameEqLit c7pfx
        (renameTag ("<site".data) c7pfx
          (renameTag ("<freejoint".data) c7pfx
            (renameTag ("<joint".data) c7pfx
              (renameTag ("<body".data) c7pfx c7body))))) = c7once
  rw [h1]
  rw [renameTag_copy c7pfx (show noMatchScan (tagMatchAt ("<joint".data))
    ((("<body name=\"robot2_pelvis\"".data) ++
      (" pos=\"1 2 3\"></body>".data))) = true by decide)]
  rw [renameTag_copy c7pfx (show noMatchScan (tagMatchAt ("<freejoint".data))
    ((("<body name=\"robot2_pelvis\"".data) ++
      (" pos=\"1 2 3\"></body>".data))) = true by decide)]
  rw [renameTag_copy c7pfx (show noMatchScan (tagMatchAt ("<site".data))
    ((("<body name=\"robot2_pelvis\"".data) ++
      (" pos=\"1 2 3\"></body>".data))) = true by decide)]
  rw [renameGuarded_copy c7pfx
    (show noMatchScan (guardMatchAt ("<geom".data) nameEqLit)
      ((("<body name=\"robot2_pelvis\"".data) ++
        (" pos=\"1 2 3\"></body>".data))) = true by decide)]
  have hp : posMatchAt (bodyPosMarker (c7pfx ++ ("pelvis".data)))
      ((("<body name=\"robot2_pelvis\"".data) ++
        (" pos=\"1 2 3\"></body>".data))) =
      some ("></body>".data) := by decide
  rw [replaceBodyPos_fire (posAttr c7cfg) hp,
    replaceBodyPos_copy (posAttr c7cfg)
      (show noMatchScan (posMatchAt (bodyPosMarker (c7pfx ++ ("pelvis".data))))
        (("></body>".data)) = true by decide)]
  show bodyPosMarker (c7pfx ++ ("pelvis".data)) ++
    (posAttr c7cfg ++ '"' :: ("></body>".data)) = c7once
  norm_num [bodyPosMarker, c7pfx, posAttr, c7cfg, renderRat, c7once]
  decide

lemma c7_twice_eq : addPrefixToRobotBody c7once c7pfx c7cfg = c7twice := by
  have h1 : renameTag ("<body".data) c7pfx c7once =
      ("<body name=\"robot2_robot2_pelvis\"".data) ++
        (" pos=\"5 6 7\"></body>".data) := by
    have hm : tagMatchAt ("<body".data) c7once =
        some ("robot2_pelvis".data, (" pos=\"5 6 7\"></body>".data)) := by
      decide
    rw [renameTag_fire c7pfx hm, renameTag_copy c7pfx
      (show noMatchScan (tagMatchAt ("<body".data))
        ((" pos=\"5 6 7\"></body>".data)) = true by decide)]
    decide
  show replaceBodyPos (c7pfx ++ ("pelvis".data)) (posAttr c7cfg)
      (renameGuarded ("<geom".data) nameEqLit c7pfx
        (renameTag ("<site".data) c7pfx
          (renameTag ("<freejoint".data) c7pfx
            (renameTag ("<joint".data) c7pfx
              (renameTag ("<body".data) c7pfx c7once))))) = c7twice
  rw [h1]
  rw [renameTag_copy c7pfx (show noMatchScan (tagMatchAt ("<joint".data))
    ((("<body name=\"robot2_robot2_pelvis\"".data) ++
      (" pos=\"5 6 7\"></body>".data))) = true by decide)]
  rw [renameTag_copy c7pfx (show noMatchScan (tagMatchAt ("<freejoint".data))
    ((("<body name=\"robot2_robot2_pelvis\"".data) ++
      (" pos=\"5 6 7\"></body>".data))) = true by decide)]
  rw [renameTag_copy c7pfx (show noMatchScan (tagMatchAt ("<site".data))
    ((("<body name=\"robot2_robot2_pelvis\"".data) ++
      (" pos=\"5 6 7\"></body>".data))) = true by decide)]
  rw [renameGuarded_copy c7pfx
    (show noMatchScan (guardMatchAt ("<geom".data) nameEqLit)
      ((("<body name=\"robot2_robot2_pelvis\"".data) ++
        (" pos=\"5 6 7\"></body>".data))) = true by decide)]
  rw [replaceBodyPos_copy (posAttr c7cfg)
    (show noMatchScan (posMatchAt (bodyPosMarker (c7pfx ++ ("pelvis".data))))
      ((("<body name=\"robot2_robot2_pelvis\"".data) ++
        (" pos=\"5 6 7\"></body>".data))) = true by decide)]
  decide

/-- **C7 (counterexample).**  The rename is *not* idempotence-guarded for
every category: applying `addPrefixToRobotBody` twice double-prefixes the
body name (`pelvis → robot2_pelvis → robot2_robot2_pelvis`) and the second
pass leaves the stale position, so applying the rename twice differs from
applying it once. -/
theorem C7_counterexample_double_prefix :
    addPrefixToRobotBody c7body c7pfx c7cfg = c7once ∧
      addPrefixToRobotBody (addPrefixToRobotBody c7body c7pfx c7cfg) c7pfx
          c7cfg = c7twice ∧
      addPrefixToRobotBody (addPrefixToRobotBody c7body c7pfx c7cfg) c7pfx
          c7cfg ≠ addPrefixToRobotBody c7body c7pfx c7cfg := by
  refine ⟨c7_once_eq, ?_, ?_⟩
  · rw [c7_once_eq, c7_twice_eq]
  · rw [c7_once_eq, c7_twice_eq]
    decide

/-- **C7 (amended).**  During cloning for robot `i > 0` the prefix
`robot{i+1}_` is prepended to every element name inside the cloned anchor
sub-tree, but the idempotence guard exists only for the guarded attribute
rewrites (geometry names and motor joint references): (a) the unguarded
tag rename used for bodies, joints, free joints, sites and motor names
prepends the prefix even to a name that already carries it (so a second
application double-prefixes); (b) the guarded rewrite leaves a match whose
captured value already starts with the prefix completely unchanged. -/
theorem C7_prefix_guard_only_guarded_rewrites :
    (∀ (tag pfx name rest : List Char),
        pfx.all (fun ch => !(ch = '"')) = true →
        name.all (fun ch => !(ch = '"')) = true →
        renameTag tag pfx
            (tag ++ ([' '] ++ (nameEqLit ++ ((pfx ++ name) ++ '"' :: rest))))
          = tag ++ ' ' :: (nameEqLit ++ (pfx ++ ((pfx ++ name) ++ '"' ::
              renameTag tag pfx rest))))
    ∧ (∀ (openTag attrLit pfx s seg cap after : List Char),
        guardMatchAt openTag attrLit s = some (seg, cap, after) →
        pfx.isPrefixOf cap = true →
        noMatchScan (guardMatchAt openTag attrLit) after = true →
        renameGuarded openTag attrLit pfx s = s) := by
  constructor
  · intro tag pfx name rest hpfx hname
    rw [renameTag_fire pfx (tagMatchAt_fire tag [' '] (pfx ++ name) rest
      (by decide) (by decide) ?_)]
    rw [List.all_append, Bool.and_eq_true]
    exact ⟨hpfx, hname⟩
  · intro openTag attrLit pfx s seg cap after hm hg hafter
    rw [renameGuarded_fire_guard pfx hm hg, renameGuarded_copy pfx hafter]
    exact (guardMatchAt_decomp hm).symm

theorem C7_prefix_guard_only_guarded_rewrites_witness :
    renameTag ("<body".data) c7pfx
        (("<body".data) ++ ([' '] ++ (nameEqLit ++
          ((c7pfx ++ ("pelvis".data)) ++ '"' :: ("/>".data)))))
      = ("<body".data) ++ ' ' :: (nameEqLit ++ (c7pfx ++
          ((c7pfx ++ ("pelvis".data)) ++ '"' ::
            renameTag ("<body".data) c7pfx ("/>".data)))) ∧
    renameGuarded ("<geom".data) nameEqLit c7pfx
        ("<geom name=\"robot2_x\"/>".data)
      = "<geom name=\"robot2_x\"/>".data := by
  constructor
  · exact C7_prefix_guard_only_guarded_rewrites.1 ("<body".data) c7pfx
      ("pelvis".data) ("/>".data) (by decide) (by decide)
  · exact C7_prefix_guard_only_guarded_rewrites.2 ("<geom".data) nameEqLit
      c7pfx ("<geom name=\"robot2_x\"/>".data) (" ".data)
      ("robot2_x".data) ("/>".data) (by decide) (by decide) (by decide)

/-! ### C2: counting occurrences in the synthesized scene -/

/-- The number of positions of `s` at which `pat` occurs. -/
def countOccur (pat : List Char) : List Char → ℕ
  | [] => 0
  | c :: rest =>
    (if pat.isPrefixOf (c :: rest) = true then 1 else 0) + countOccur pat rest

/-- No occurrence of `pat` straddles the boundary of `a ++ b`: at every
position of `a`, appending `b` neither creates nor destroys a match. -/
def straddleFree (pat : List Char) : List Char → List Char → Bool
  | [], _ => true
  | c :: rest, b => (pat.isPrefixOf ((c :: rest) ++ b) ==
      pat.isPrefixOf (c :: rest)) && straddleFree pat rest b

lemma countOccur_append (pat a b : List Char)
    (h : straddleFree pat a b = true) :
    countOccur pat (a ++ b) = countOccur pat a + countOccur pat b := by
  induction a with
  | nil => simp [countOccur]
  | cons c rest ih =>
    rw [straddleFree, Bool.and_eq_true, beq_iff_eq] at h
    rw [List.cons_append, countOccur, ← List.cons_append, h.1, countOccur,
      ih h.2]
    omega

/-- The anchor-body pattern for robot `k`: `` `<body name="pelvis"` `` for
robot 0 and `` `<body name="robot{k+1}_pelvis"` `` for later robots. -/
def anchorPat (k : ℕ) : List Char :=
  "<body name=\"".data ++ (robotId k ++ ("pelvis\"".data))

/-- The anchor body marker of robot `k`'s clone begins with robot `k`'s
anchor pattern. -/
lemma anchorPat_isPrefixOf_marker :
    ∀ k, k < 12 →
      (anchorPat k).isPrefixOf
        (bodyPosMarker (robotId k ++ ("pelvis".data))) = true := by
  decide

/-- For `j ≠ k` (both at most 11) robot `j`'s anchor pattern does not occur
at the head of robot `k`'s clone marker: the two names differ within the
marker. -/
lemma anchorPat_take_marker_mismatch :
    ∀ j, j < 12 → ∀ k, k < 12 → j ≠ k →
      ((anchorPat j).take
          (bodyPosMarker (robotId k ++ ("pelvis".data))).length).isPrefixOf
        (bodyPosMarker (robotId k ++ ("pelvis".data))) = false := by
  decide

/-- The twelve anchor names are pairwise distinct. -/
lemma anchorPat_inj : ∀ j, j < 12 → ∀ k, k < 12 → j ≠ k →
    anchorPat j ≠ anchorPat k := by
  decide

/-! ### The structure of the generated multi-robot scene -/

lemma substringJS_extract (a b c : List Char) (x y : ℕ)
    (hx : x = a.length) (hy : y = a.length + b.length) :
    substringJS (a ++ (b ++ c)) x y = b := by
  unfold substringJS
  rw [if_pos (by omega)]
  subst hx
  rw [List.drop_left, show y - a.length = b.length by omega, List.take_left]

lemma drop_append_len (a b : List Char) (n : ℕ) (h : n = a.length) :
    (a ++ b).drop n = b := by
  subst h
  exact List.drop_left a b

/-- The five-section shape of `generateMultiRobotXML`'s output for two or
more configs, given that the scanners locate the anchor sub-tree and the
motor block at the stated boundaries. -/
lemma generateMultiRobotXML_structure
    (pre anchor mid motors post : List Char)
    (cfgs : List RobotSpawnConfig) (aStart : ℕ) (hN2 : 2 ≤ cfgs.length)
    (hidx : indexOfAux ("<body name=\"pelvis\"".data)
      (pre ++ (anchor ++ (mid ++ (motors ++ post)))) = some pre.length)
    (hend : findBodyEnd
      ((pre ++ (anchor ++ (mid ++ (motors ++ post)))).drop pre.length) =
        some anchor.length)
    (hact : indexOfAux ("<actuator>".data)
      (pre ++ (anchor ++ (mid ++ (motors ++ post)))) = some aStart)
    (hms : indexOfFrom ("<motor name=\"".data)
      (pre ++ (anchor ++ (mid ++ (motors ++ post)))) aStart =
        some (pre.length + anchor.length + mid.length))
    (hae : indexOfAux ("</actuator>".data)
      (pre ++ (anchor ++ (mid ++ (motors ++ post)))) =
        some (pre.length + anchor.length + mid.length + motors.length)) :
    generateMultiRobotXML (pre ++ (anchor ++ (mid ++ (motors ++ post)))) cfgs
      = .ok (pre ++
          (((cfgs.enum.map (fun p =>
              addPrefixToRobotBody anchor (robotId p.1) p.2 ++
                sepAfterBody)).flatten) ++
            (mid ++
              (((cfgs.enum.map (fun p =>
                  if p.1 = 0 then motors
                  else addPrefixToMotors motors (robotId p.1))).flatten) ++
                post)))) := by
  rcases cfgs with _ | ⟨c1, cs⟩
  · simp at hN2
  rcases cs with _ | ⟨c2, rest⟩
  · simp at hN2
  show (match indexOfAux ("<body name=\"pelvis\"".data)
      (pre ++ (anchor ++ (mid ++ (motors ++ post)))) with
    | none => Except.error SynthErr.AnchorNotFound
    | some pStart => _) = _
  rw [hidx]
  show (match findBodyEnd
      ((pre ++ (anchor ++ (mid ++ (motors ++ post)))).drop pre.length) with
    | none => Except.error SynthErr.PelvisEndNotFound
    | some subLen => _) = _
  rw [hend]
  show (match indexOfAux ("<actuator>".data)
      (pre ++ (anchor ++ (mid ++ (motors ++ post)))) with
    | none => Except.error SynthErr.ActuatorNotFound
    | some aStart => _) = _
  rw [hact]
  show (match indexOfFrom ("<motor name=\"".data)
      (pre ++ (anchor ++ (mid ++ (motors ++ post)))) aStart with
    | none => Except.error SynthErr.MotorsNotFound
    | some mStart => _) = _
  rw [hms]
  show (match indexOfAux ("</actuator>".data)
      (pre ++ (anchor ++ (mid ++ (motors ++ post)))) with
    | none => Except.error SynthErr.ActuatorEndNotFound
    | some aEnd => _) = _
  rw [hae]
  have hanchor : substringJS (pre ++ (anchor ++ (mid ++ (motors ++ post))))
      pre.length (pre.length + anchor.length) = anchor :=
    substringJS_extract pre anchor (mid ++ (motors ++ post)) _ _ rfl rfl
  have hpre' : substringJS (pre ++ (anchor ++ (mid ++ (motors ++ post))))
      0 pre.length = pre := by
    unfold substringJS
    rw [if_pos (by omega), List.drop_zero, Nat.sub_zero, List.take_left]
  have hmid' : substringJS (pre ++ (anchor ++ (mid ++ (motors ++ post))))
      (pre.length + anchor.length)
      (pre.length + anchor.length + mid.length) = mid := by
    rw [show pre ++ (anchor ++ (mid ++ (motors ++ post))) =
      (pre ++ anchor) ++ (mid ++ (motors ++ post)) by
        simp [List.append_assoc]]
    exact substringJS_extract (pre ++ anchor) mid (motors ++ post) _ _
      (by simp only [List.length_append]) (by simp only [List.length_append])
  have hmotors' : substringJS (pre ++ (anchor ++ (mid ++ (motors ++ post))))
      (pre.length + anchor.length + mid.length)
      (pre.length + anchor.length + mid.length + motors.length) = motors := by
    rw [show pre ++ (anchor ++ (mid ++ (motors ++ post))) =
      ((pre ++ anchor) ++ mid) ++ (motors ++ post) by
        simp [List.append_assoc]]
    exact substringJS_extract ((pre ++ anchor) ++ mid) motors post _ _
      (by simp only [List.length_append])
      (by simp only [List.length_append])
  have hpost' : (pre ++ (anchor ++ (mid ++ (motors ++ post)))).drop
      (pre.length + anchor.length + mid.length + motors.length) = post := by
    rw [show pre ++ (anchor ++ (mid ++ (motors ++ post))) =
      (((pre ++ anchor) ++ mid) ++ motors) ++ post by
        simp [List.append_assoc]]
    exact drop_append_len (((pre ++ anchor) ++ mid) ++ motors) post _
      (by simp only [List.length_append])
  simp only [hanchor, hpre', hmid', hmotors', hpost']
  simp [List.append_assoc]

/-! ### The shape of one cloned anchor sub-tree -/

/-- `` `<body name="${nm}" pos="${attr}"` `` followed by the rest of the
anchor sub-tree text. -/
def namedBody (nm attr abody : List Char) : List Char :=
  bodyPosMarker nm ++ (attr ++ '"' :: abody)

/-- Side conditions on the anchor sub-tree under which the five-stage
rename pipeline of `addPrefixToRobotBody` touches exactly the anchor's own
`name` and `pos` attributes: no further `<body>`/`<joint>`/`<freejoint>`/
`<site>` name match, no `<geom>` guarded match, and no second
anchor-position marker. -/
def cloneSideOK (attr abody pfx : List Char) : Bool :=
  noMatchScan (tagMatchAt ("<body".data))
    (" pos=\"".data ++ (attr ++ '"' :: abody)) &&
  noMatchScan (tagMatchAt ("<joint".data))
    (namedBody (pfx ++ "pelvis".data) attr abody) &&
  noMatchScan (tagMatchAt ("<freejoint".data))
    (namedBody (pfx ++ "pelvis".data) attr abody) &&
  noMatchScan (tagMatchAt ("<site".data))
    (namedBody (pfx ++ "pelvis".data) attr abody) &&
  noMatchScan (guardMatchAt ("<geom".data) nameEqLit)
    (namedBody (pfx ++ "pelvis".data) attr abody) &&
  noMatchScan (posMatchAt (bodyPosMarker (pfx ++ "pelvis".data))) abody

/-- Cloning one robot rewrites the anchor's `name` attribute to the
prefixed name and its `pos` attribute to the config's coordinates, and
nothing else: the clone of `` `<body name="pelvis" pos="attr"`abody `` is
`` `<body name="${pfx}pelvis" pos="${posAttr cfg}"`abody ``. -/
lemma addPrefix_clone (attr abody : List Char) (cfg : RobotSpawnConfig)
    (pfx : List Char)
    (hattr : attr.all (fun c => !(c = '"')) = true)
    (hside : cloneSideOK attr abody pfx = true) :
    addPrefixToRobotBody (namedBody ("pelvis".data) attr abody) pfx cfg =
      namedBody (pfx ++ "pelvis".data) (posAttr cfg) abody := by
  simp only [cloneSideOK, Bool.and_eq_true] at hside
  obtain ⟨⟨⟨⟨⟨hs1, hs2⟩, hs3⟩, hs4⟩, hs5⟩, hs6⟩ := hside
  by_cases hpfx : pfx = []
  · subst hpfx
    rw [List.nil_append] at hs6
    unfold addPrefixToRobotBody
    rw [if_pos rfl]
    have hfire : posMatchAt (bodyPosMarker ("pelvis".data))
        (namedBody ("pelvis".data) attr abody) = some abody :=
      posMatchAt_fire _ attr abody hattr
    rw [replaceBodyPos_fire (posAttr cfg) hfire,
      replaceBodyPos_copy (posAttr cfg) hs6]
    rfl
  · unfold addPrefixToRobotBody
    rw [if_neg hpfx]
    show replaceBodyPos (pfx ++ "pelvis".data) (posAttr cfg)
        (renameGuarded ("<geom".data) nameEqLit pfx
          (renameTag ("<site".data) pfx
            (renameTag ("<freejoint".data) pfx
              (renameTag ("<joint".data) pfx
                (renameTag ("<body".data) pfx
                  (namedBody ("pelvis".data) attr abody)))))) =
      namedBody (pfx ++ "pelvis".data) (posAttr cfg) abody
    have hfire1 : tagMatchAt ("<body".data)
        (namedBody ("pelvis".data) attr abody) =
        some ("pelvis".data, " pos=\"".data ++ (attr ++ '"' :: abody)) := by
      have hsh : namedBody ("pelvis".data) attr abody =
          "<body".data ++ ([' '] ++ (nameEqLit ++ ("pelvis".data ++ '"' ::
            (" pos=\"".data ++ (attr ++ '"' :: abody))))) := rfl
      rw [hsh]
      exact tagMatchAt_fire _ [' '] _ _ (by decide) (by decide) (by decide)
    rw [renameTag_fire pfx hfire1, renameTag_copy pfx hs1]
    have hb1 : "<body".data ++ ' ' :: (nameEqLit ++ (pfx ++
        ("pelvis".data ++ '"' :: (" pos=\"".data ++ (attr ++ '"' :: abody))))) =
        namedBody (pfx ++ "pelvis".data) attr abody := by
      have e1 : ("<body".data ++ ' ' :: (nameEqLit ++ (pfx ++
          ("pelvis".data ++ '"' :: (" pos=\"".data ++ (attr ++ '"' :: abody)))))) =
          "<body name=\"".data ++ (pfx ++ ("pelvis".data ++
            ("\" pos=\"".data ++ (attr ++ '"' :: abody)))) := rfl
      rw [e1]
      simp [namedBody, bodyPosMarker, List.append_assoc]
    rw [hb1]
    rw [renameTag_copy pfx hs2, renameTag_copy pfx hs3, renameTag_copy pfx hs4,
      renameGuarded_copy pfx hs5]
    have hfire2 : posMatchAt (bodyPosMarker (pfx ++ "pelvis".data))
        (namedBody (pfx ++ "pelvis".data) attr abody) = some abody :=
      posMatchAt_fire _ attr abody hattr
    rw [replaceBodyPos_fire (posAttr cfg) hfire2,
      replaceBodyPos_copy (posAttr cfg) hs6]
    rfl

/-! ### The shape of one motor entry and its per-robot rename -/

/-- A single-entry actuator motor block
`` `<motor name="${mname}" joint="${jname}"`mtail ``. -/
def motorEntry (mname jname mtail : List Char) : List Char :=
  "<motor name=\"".data ++ (mname ++ ('"' ::
    (" joint=\"".data ++ (jname ++ '"' :: mtail))))

/-- The motor block after the unguarded name rename with prefix `pfx`. -/
def motorNamed (pfx mname jname mtail : List Char) : List Char :=
  "<motor name=\"".data ++ (pfx ++ (mname ++ ('"' ::
    (" joint=\"".data ++ (jname ++ '"' :: mtail)))))

/-- The motor block of a cloned robot: both the motor name and the joint
reference carry the per-robot prefix. -/
def motorGroupP (pfx mname jname mtail : List Char) : List Char :=
  "<motor name=\"".data ++ (pfx ++ (mname ++ ('"' ::
    (" joint=\"".data ++ (pfx ++ (jname ++ '"' :: mtail))))))

/-- `addPrefixToMotors` on a single-entry motor block prefixes the motor
name (unguarded pass) and the joint reference (guarded pass). -/
lemma addPrefixToMotors_entry (pfx mname jname mtail : List Char)
    (hmname : mname.all (fun c => !(c = '"')) = true)
    (hmrest : noMatchScan (tagMatchAt ("<motor".data))
      (" joint=\"".data ++ (jname ++ '"' :: mtail)) = true)
    (hgm : guardMatchAt ("<motor".data) jointEqLit
        (motorNamed pfx mname jname mtail) =
      some (" name=\"".data ++ (pfx ++ (mname ++ "\" ".data)), jname, mtail))
    (hjp : pfx.isPrefixOf jname = false)
    (hmt : noMatchScan (guardMatchAt ("<motor".data) jointEqLit) mtail = true) :
    addPrefixToMotors (motorEntry mname jname mtail) pfx =
      motorGroupP pfx mname jname mtail := by
  unfold addPrefixToMotors
  have hfire : tagMatchAt ("<motor".data) (motorEntry mname jname mtail) =
      some (mname, " joint=\"".data ++ (jname ++ '"' :: mtail)) := by
    have hsh : motorEntry mname jname mtail =
        "<motor".data ++ ([' '] ++ (nameEqLit ++ (mname ++ '"' ::
          (" joint=\"".data ++ (jname ++ '"' :: mtail))))) := rfl
    rw [hsh]
    exact tagMatchAt_fire _ [' '] _ _ (by decide) (by decide) hmname
  rw [renameTag_fire pfx hfire, renameTag_copy pfx hmrest]
  have hb : "<motor".data ++ ' ' :: (nameEqLit ++ (pfx ++ (mname ++ '"' ::
      (" joint=\"".data ++ (jname ++ '"' :: mtail))))) =
      motorNamed pfx mname jname mtail := rfl
  rw [hb]
  rw [renameGuarded_fire_rename pfx hgm hjp, renameGuarded_copy pfx hmt]
  have hsw : ((" name=\"".data ++ (pfx ++ (mname ++ "\" ".data))).takeWhile
      wsChar) = [' '] := by
    show ((' ' :: ('n' :: ("ame=\"".data ++ (pfx ++
      (mname ++ "\" ".data))))).takeWhile wsChar) = [' ']
    rw [List.takeWhile_cons, List.takeWhile_cons]
    simp [wsChar]
  rw [hsw]
  have hdrop : (" name=\"".data ++ (pfx ++ (mname ++ "\" ".data))).drop
      ([' '] : List Char).length =
      "name=\"".data ++ (pfx ++ (mname ++ "\" ".data)) := rfl
  rw [hdrop]
  simp only [motorGroupP, List.append_assoc]
  rfl

/-! ### Occurrence counting across segment boundaries -/

/-- `pat` neither matches across the end of `a` nor is destroyed there,
whatever text follows: at every position of `a`, either the match lies
fully inside `a`, or it already fails within `a`. -/
def noStraddle (pat : List Char) : List Char → Bool
  | [] => true
  | c :: rest =>
    (pat.isPrefixOf (c :: rest) ||
      !((pat.take (c :: rest).length).isPrefixOf (c :: rest))) &&
    noStraddle pat rest

lemma straddleFree_of_noStraddle (pat a X : List Char)
    (h : noStraddle pat a = true) : straddleFree pat a X = true := by
  induction a with
  | nil => rfl
  | cons c rest ih =>
    rw [noStraddle, Bool.and_eq_true, Bool.or_eq_true] at h
    rw [straddleFree, Bool.and_eq_true]
    refine ⟨?_, ih h.2⟩
    rcases h.1 with h1 | h1
    · rw [h1, isPrefixOf_mono_append h1]
      rfl
    · rw [Bool.not_eq_true'] at h1
      have h2 : pat.isPrefixOf (c :: rest) = false := by
        by_contra hc
        rw [Bool.not_eq_false] at hc
        have h3 : pat.take (c :: rest).length = pat := by
          rw [List.isPrefixOf_iff_prefix] at hc
          exact List.take_of_length_le hc.length_le
        rw [h3, hc] at h1
        cases h1
      rw [h2, isPrefixOf_append_false X h1]
      rfl

lemma noStraddle_append (pat a b : List Char) (ha : noStraddle pat a = true)
    (hb : noStraddle pat b = true) : noStraddle pat (a ++ b) = true := by
  induction a with
  | nil => exact hb
  | cons c rest ih =>
    rw [noStraddle, Bool.and_eq_true, Bool.or_eq_true] at ha
    rw [List.cons_append, noStraddle, Bool.and_eq_true]
    refine ⟨?_, ih ha.2⟩
    rw [Bool.or_eq_true]
    rcases ha.1 with h1 | h1
    · left
      exact isPrefixOf_mono_append h1 b
    · right
      rw [Bool.not_eq_true'] at h1 ⊢
      show (pat.take ((c :: rest) ++ b).length).isPrefixOf ((c :: rest) ++ b)
        = false
      apply isPrefixOf_append_false
      rw [List.take_take, min_eq_left (by simp)]
      exact h1

lemma countOccur_zero_of_all_ne (pat a : List Char) (c0 : Char)
    (hne : pat ≠ []) (hhead : pat.headD ' ' = c0)
    (h : a.all (fun c => !(c = c0)) = true) : countOccur pat a = 0 := by
  induction a with
  | nil => rfl
  | cons c rest ih =>
    rw [List.all_cons, Bool.and_eq_true] at h
    have hp : pat.isPrefixOf (c :: rest) = false := by
      rcases pat with _ | ⟨p0, pt⟩
      · cases hne rfl
      · simp only [List.headD] at hhead
        have hc : ¬(c = c0) := by simpa using h.1
        show (p0 == c && pt.isPrefixOf rest) = false
        rw [show (p0 == c) = false from by
          rw [beq_eq_false_iff_ne]
          intro he
          exact hc (by rw [← he, hhead])]
        rfl
    rw [countOccur, hp, ih h.2]
    simp

lemma noStraddle_of_all_ne (pat a : List Char) (c0 : Char)
    (hne : pat ≠ []) (hhead : pat.headD ' ' = c0)
    (h : a.all (fun c => !(c = c0)) = true) : noStraddle pat a = true := by
  induction a with
  | nil => rfl
  | cons c rest ih =>
    rw [List.all_cons, Bool.and_eq_true] at h
    rw [noStraddle, Bool.and_eq_true, Bool.or_eq_true]
    refine ⟨Or.inr ?_, ih h.2⟩
    rw [Bool.not_eq_true']
    rcases pat with _ | ⟨p0, pt⟩
    · cases hne rfl
    · simp only [List.headD] at hhead
      have hc : ¬(c = c0) := by simpa using h.1
      rw [List.length_cons, List.take_succ_cons]
      show (p0 == c && (pt.take rest.length).isPrefixOf rest) = false
      rw [show (p0 == c) = false from by
        rw [beq_eq_false_iff_ne]
        intro he
        exact hc (by rw [← he, hhead])]
      rfl

/-! ### The twelve anchor patterns against the twelve clone markers -/

lemma anchorPat_ne_nil : ∀ j, j < 12 → anchorPat j ≠ [] := by
  decide

lemma anchorPat_head : ∀ j, j < 12 → (anchorPat j).headD ' ' = '<' := by
  decide

lemma marker_count : ∀ j, j < 12 → ∀ k, k < 12 →
    countOccur (anchorPat j) (bodyPosMarker (robotId k ++ "pelvis".data)) =
      if j = k then 1 else 0 := by
  decide

lemma marker_noStraddle : ∀ j, j < 12 → ∀ k, k < 12 →
    noStraddle (anchorPat j) (bodyPosMarker (robotId k ++ "pelvis".data)) =
      true := by
  decide

lemma sep_count : ∀ j, j < 12 →
    countOccur (anchorPat j) sepAfterBody = 0 := by
  decide

lemma sep_noStraddle : ∀ j, j < 12 →
    noStraddle (anchorPat j) sepAfterBody = true := by
  decide

lemma robotId_pelvis_inj : ∀ j, j < 12 → ∀ k, k < 12 → j ≠ k →
    robotId j ++ "pelvis".data ≠ robotId k ++ "pelvis".data := by
  decide

/-- Counting anchor patterns across one clone: the clone of robot `k`
contributes exactly one occurrence of robot `k`'s anchor pattern and none
of any other robot's. -/
lemma count_one_clone (j k : ℕ) (hj : j < 12) (hk : k < 12)
    (abody : List Char) (cfg : RobotSpawnConfig)
    (habc : countOccur (anchorPat j) ('"' :: abody) = 0)
    (habs : noStraddle (anchorPat j) ('"' :: abody) = true)
    (hpa : (posAttr cfg).all (fun c => !(c = '<')) = true)
    (Y : List Char) :
    countOccur (anchorPat j)
      ((namedBody (robotId k ++ "pelvis".data) (posAttr cfg) abody ++
        sepAfterBody) ++ Y) =
    (if j = k then 1 else 0) + countOccur (anchorPat j) Y := by
  rw [show (namedBody (robotId k ++ "pelvis".data) (posAttr cfg) abody ++
      sepAfterBody) ++ Y =
      bodyPosMarker (robotId k ++ "pelvis".data) ++ ((posAttr cfg) ++
        (('"' :: abody) ++ (sepAfterBody ++ Y))) from by
    simp [namedBody, List.append_assoc]]
  rw [countOccur_append _ _ _ (straddleFree_of_noStraddle _ _ _
    (marker_noStraddle j hj k hk))]
  rw [countOccur_append _ _ _ (straddleFree_of_noStraddle _ _ _
    (noStraddle_of_all_ne _ _ '<' (anchorPat_ne_nil j hj)
      (anchorPat_head j hj) hpa))]
  rw [countOccur_append _ _ _ (straddleFree_of_noStraddle _ _ _ habs)]
  rw [countOccur_append _ _ _ (straddleFree_of_noStraddle _ _ _
    (sep_noStraddle j hj))]
  rw [marker_count j hj k hk,
    countOccur_zero_of_all_ne _ _ '<' (anchorPat_ne_nil j hj)
      (anchorPat_head j hj) hpa,
    habc, sep_count j hj]
  omega

/-- Counting anchor patterns across the whole clone section. -/
lemma count_robots_aux (abody : List Char) (j : ℕ) (hj : j < 12)
    (habc : countOccur (anchorPat j) ('"' :: abody) = 0)
    (habs : noStraddle (anchorPat j) ('"' :: abody) = true)
    (l : List RobotSpawnConfig) :
    ∀ (s : ℕ) (X : List Char), s + l.length ≤ 12 →
      (∀ cfg ∈ l, (posAttr cfg).all (fun c => !(c = '<')) = true) →
      countOccur (anchorPat j)
        (((l.enumFrom s).map (fun p =>
          namedBody (robotId p.1 ++ "pelvis".data) (posAttr p.2) abody ++
            sepAfterBody)).flatten ++ X) =
      (if s ≤ j ∧ j < s + l.length then 1 else 0) +
        countOccur (anchorPat j) X := by
  induction l with
  | nil =>
    intro s X hb hp
    rw [show List.enumFrom s ([] : List RobotSpawnConfig) = [] from rfl,
      List.map_nil, List.flatten_nil, List.nil_append,
      if_neg (by rw [List.length_nil]; omega), Nat.zero_add]
  | cons c tl ih =>
    intro s X hb hp
    rw [List.length_cons] at hb
    rw [List.enumFrom_cons]
    simp only [List.map_cons, List.flatten_cons]
    rw [List.append_assoc]
    rw [count_one_clone j s hj (by omega) abody c habc habs
      (hp c (List.mem_cons_self c tl)) _]
    rw [ih (s + 1) X (by omega)
      (fun cfg hc => hp cfg (List.mem_cons_of_mem c hc))]
    rw [List.length_cons]
    split_ifs <;> omega

/-- Counting anchor patterns across the whole actuator section: no motor
group contains an anchor pattern. -/
lemma count_motors_aux (mname jname mtail : List Char) (j : ℕ)
    (hmc : countOccur (anchorPat j) (motorEntry mname jname mtail) = 0)
    (hmns : noStraddle (anchorPat j) (motorEntry mname jname mtail) = true)
    (hgc : ∀ k, k < 12 →
      countOccur (anchorPat j) (motorGroupP (robotId k) mname jname mtail) = 0)
    (hgs : ∀ k, k < 12 →
      noStraddle (anchorPat j) (motorGroupP (robotId k) mname jname mtail) =
        true)
    (l : List RobotSpawnConfig) :
    ∀ (s : ℕ) (X : List Char), s + l.length ≤ 12 →
      countOccur (anchorPat j)
        (((l.enumFrom s).map (fun p =>
          if p.1 = 0 then motorEntry mname jname mtail
          else motorGroupP (robotId p.1) mname jname mtail)).flatten ++ X) =
      countOccur (anchorPat j) X := by
  induction l with
  | nil =>
    intro s X hb
    rw [show List.enumFrom s ([] : List RobotSpawnConfig) = [] from rfl,
      List.map_nil, List.flatten_nil, List.nil_append]
  | cons c tl ih =>
    intro s X hb
    rw [List.length_cons] at hb
    rw [List.enumFrom_cons]
    simp only [List.map_cons, List.flatten_cons]
    rw [List.append_assoc]
    by_cases hs : s = 0
    · subst hs
      rw [if_pos rfl]
      rw [countOccur_append _ _ _ (straddleFree_of_noStraddle _ _ _ hmns),
        hmc, ih 1 X (by omega), Nat.zero_add]
    · rw [if_neg hs]
      rw [countOccur_append _ _ _ (straddleFree_of_noStraddle _ _ _
        (hgs s (by omega))), hgc s (by omega), ih (s + 1) X (by omega),
        Nat.zero_add]

/-! ### Rewriting the two per-robot maps to their closed forms -/

lemma robots_map_eq (attr abody : List Char)
    (hattr : attr.all (fun c => !(c = '"')) = true)
    (l : List RobotSpawnConfig) :
    ∀ (s : ℕ),
      (∀ k, s ≤ k → k < s + l.length →
        cloneSideOK attr abody (robotId k) = true) →
      (l.enumFrom s).map (fun p =>
        addPrefixToRobotBody (namedBody ("pelvis".data) attr abody)
          (robotId p.1) p.2 ++ sepAfterBody) =
      (l.enumFrom s).map (fun p =>
        namedBody (robotId p.1 ++ "pelvis".data) (posAttr p.2) abody ++
          sepAfterBody) := by
  induction l with
  | nil => intro s _; rfl
  | cons c tl ih =>
    intro s h
    rw [List.enumFrom_cons]
    simp only [List.map_cons]
    rw [addPrefix_clone attr abody c (robotId s) hattr
      (h s le_rfl (by rw [List.length_cons]; omega))]
    rw [ih (s + 1) (fun k hk1 hk2 => h k (by omega)
      (by rw [List.length_cons]; omega))]

lemma motors_map_eq (mname jname mtail : List Char)
    (hmname : mname.all (fun c => !(c = '"')) = true)
    (hmrest : noMatchScan (tagMatchAt ("<motor".data))
      (" joint=\"".data ++ (jname ++ '"' :: mtail)) = true)
    (hmt : noMatchScan (guardMatchAt ("<motor".data) jointEqLit) mtail = true)
    (l : List RobotSpawnConfig) :
    ∀ (s : ℕ),
      (∀ k, s ≤ k → k < s + l.length → 1 ≤ k →
        guardMatchAt ("<motor".data) jointEqLit
            (motorNamed (robotId k) mname jname mtail) =
          some (" name=\"".data ++ (robotId k ++ (mname ++ "\" ".data)),
            jname, mtail)) →
      (∀ k, s ≤ k → k < s + l.length → 1 ≤ k →
        (robotId k).isPrefixOf jname = false) →
      (l.enumFrom s).map (fun p =>
        if p.1 = 0 then motorEntry mname jname mtail
        else addPrefixToMotors (motorEntry mname jname mtail) (robotId p.1)) =
      (l.enumFrom s).map (fun p =>
        if p.1 = 0 then motorEntry mname jname mtail
        else motorGroupP (robotId p.1) mname jname mtail) := by
  induction l with
  | nil => intro s _ _; rfl
  | cons c tl ih =>
    intro s hg hjn
    rw [List.enumFrom_cons]
    simp only [List.map_cons]
    rw [ih (s + 1)
      (fun k h1 h2 h3 => hg k (by omega) (by rw [List.length_cons]; omega) h3)
      (fun k h1 h2 h3 => hjn k (by omega) (by rw [List.length_cons]; omega) h3)]
    by_cases hs : s = 0
    · subst hs
      rfl
    · congr 1
      rw [if_neg hs, if_neg hs]
      exact addPrefixToMotors_entry (robotId s) mname jname mtail hmname hmrest
        (hg s le_rfl (by rw [List.length_cons]; omega) (by omega))
        (hjn s le_rfl (by rw [List.length_cons]; omega) (by omega)) hmt

/-- **C2.**  For every spawn config sequence of length `N ∈ [2, 11]` and
every template of the shape `pre ++ anchor ++ mid ++ motors ++ post` —
where the anchor sub-tree is `` `<body name="pelvis" pos="attr"`abody ``
and the actuator block is a motor entry
`` `<motor name="mname" joint="jname"`mtail `` — whose sections satisfy the
stated locator and non-interference side conditions, synthesis succeeds
and its output (i) contains exactly one occurrence of robot `k`'s anchor
body pattern `` `<body name="${robotId k}pelvis"` `` for each `k < N` and
none of any other robot's pattern (`N ≤ j < 12`), (ii) clones the anchor
once per config with the per-robot prefixed name and position, and builds
one actuator motor group per config whose motor name and joint reference
carry the per-robot prefix, and (iii) the `N` generated anchor names are
pairwise distinct. -/
theorem C2_multi_robot_clone_structure
    (pre attr abody mid mname jname mtail post : List Char)
    (cfgs : List RobotSpawnConfig) (aStart : ℕ)
    (hN2 : 2 ≤ cfgs.length) (hN11 : cfgs.length ≤ 11)
    (hidx : indexOfAux ("<body name=\"pelvis\"".data)
      (pre ++ (namedBody ("pelvis".data) attr abody ++
        (mid ++ (motorEntry mname jname mtail ++ post)))) = some pre.length)
    (hend : findBodyEnd
      ((pre ++ (namedBody ("pelvis".data) attr abody ++
        (mid ++ (motorEntry mname jname mtail ++ post)))).drop pre.length) =
          some (namedBody ("pelvis".data) attr abody).length)
    (hact : indexOfAux ("<actuator>".data)
      (pre ++ (namedBody ("pelvis".data) attr abody ++
        (mid ++ (motorEntry mname jname mtail ++ post)))) = some aStart)
    (hms : indexOfFrom ("<motor name=\"".data)
      (pre ++ (namedBody ("pelvis".data) attr abody ++
        (mid ++ (motorEntry mname jname mtail ++ post)))) aStart =
          some (pre.length + (namedBody ("pelvis".data) attr abody).length +
            mid.length))
    (hae : indexOfAux ("</actuator>".data)
      (pre ++ (namedBody ("pelvis".data) attr abody ++
        (mid ++ (motorEntry mname jname mtail ++ post)))) =
          some (pre.length + (namedBody ("pelvis".data) attr abody).length +
            mid.length + (motorEntry mname jname mtail).length))
    (hattr : attr.all (fun c => !(c = '"')) = true)
    (hclone : ∀ k, k < cfgs.length → cloneSideOK attr abody (robotId k) = true)
    (hmname : mname.all (fun c => !(c = '"')) = true)
    (hmrest : noMatchScan (tagMatchAt ("<motor".data))
      (" joint=\"".data ++ (jname ++ '"' :: mtail)) = true)
    (hgm : ∀ k, k < cfgs.length - 1 →
      guardMatchAt ("<motor".data) jointEqLit
          (motorNamed (robotId (k + 1)) mname jname mtail) =
        some (" name=\"".data ++ (robotId (k + 1) ++ (mname ++ "\" ".data)),
          jname, mtail))
    (hjp : ∀ k, k < cfgs.length - 1 →
      (robotId (k + 1)).isPrefixOf jname = false)
    (hmt : noMatchScan (guardMatchAt ("<motor".data) jointEqLit) mtail = true)
    (hpreC : ∀ j, j < 12 → countOccur (anchorPat j) pre = 0 ∧
      noStraddle (anchorPat j) pre = true)
    (hmidC : ∀ j, j < 12 → countOccur (anchorPat j) mid = 0 ∧
      noStraddle (anchorPat j) mid = true)
    (habodyC : ∀ j, j < 12 → countOccur (anchorPat j) ('"' :: abody) = 0 ∧
      noStraddle (anchorPat j) ('"' :: abody) = true)
    (hmotC : ∀ j, j < 12 →
      countOccur (anchorPat j) (motorEntry mname jname mtail) = 0 ∧
      noStraddle (anchorPat j) (motorEntry mname jname mtail) = true)
    (hgrpC : ∀ j, j < 12 → ∀ k, k < 12 →
      countOccur (anchorPat j) (motorGroupP (robotId k) mname jname mtail) = 0 ∧
      noStraddle (anchorPat j) (motorGroupP (robotId k) mname jname mtail) =
        true)
    (hposC : ∀ cfg ∈ cfgs, (posAttr cfg).all (fun c => !(c = '<')) = true)
    (hpostC : ∀ j, j < 12 → countOccur (anchorPat j) post = 0) :
    generateMultiRobotXML
        (pre ++ (namedBody ("pelvis".data) attr abody ++
          (mid ++ (motorEntry mname jname mtail ++ post)))) cfgs =
      .ok (pre ++
        (((cfgs.enum.map (fun p =>
          namedBody (robotId p.1 ++ "pelvis".data) (posAttr p.2) abody ++
            sepAfterBody)).flatten) ++
          (mid ++
            (((cfgs.enum.map (fun p =>
              if p.1 = 0 then motorEntry mname jname mtail
              else motorGroupP (robotId p.1) mname jname mtail)).flatten) ++
              post)))) ∧
    (∀ j, j < 12 → countOccur (anchorPat j)
      (pre ++
        (((cfgs.enum.map (fun p =>
          namedBody (robotId p.1 ++ "pelvis".data) (posAttr p.2) abody ++
            sepAfterBody)).flatten) ++
          (mid ++
            (((cfgs.enum.map (fun p =>
              if p.1 = 0 then motorEntry mname jname mtail
              else motorGroupP (robotId p.1) mname jname mtail)).flatten) ++
              post)))) = if j < cfgs.length then 1 else 0) ∧
    (∀ j, j < cfgs.length → ∀ k, k < cfgs.length → j ≠ k →
      robotId j ++ "pelvis".data ≠ robotId k ++ "pelvis".data) := by
  have hstruct := generateMultiRobotXML_structure pre
    (namedBody ("pelvis".data) attr abody) mid (motorEntry mname jname mtail)
    post cfgs aStart hN2 hidx hend hact hms hae
  rw [show cfgs.enum = cfgs.enumFrom 0 from rfl] at hstruct
  rw [robots_map_eq attr abody hattr cfgs 0
    (fun k hk0 hkl => hclone k (by omega))] at hstruct
  rw [motors_map_eq mname jname mtail hmname hmrest hmt cfgs 0
    (fun k hk0 hkl h1 => by
      have e : k - 1 + 1 = k := by omega
      have h := hgm (k - 1) (by omega)
      rw [e] at h
      exact h)
    (fun k hk0 hkl h1 => by
      have e : k - 1 + 1 = k := by omega
      have h := hjp (k - 1) (by omega)
      rw [e] at h
      exact h)] at hstruct
  refine ⟨hstruct, ?_, ?_⟩
  · intro j hj
    obtain ⟨hpc, hps⟩ := hpreC j hj
    obtain ⟨hmc2, hms2⟩ := hmidC j hj
    obtain ⟨habc, habs⟩ := habodyC j hj
    obtain ⟨hmoc, hmos⟩ := hmotC j hj
    rw [show cfgs.enum = cfgs.enumFrom 0 from rfl]
    rw [countOccur_append _ _ _ (straddleFree_of_noStraddle _ _ _ hps), hpc]
    rw [count_robots_aux abody j hj habc habs cfgs 0 _ (by omega) hposC]
    rw [countOccur_append _ _ _ (straddleFree_of_noStraddle _ _ _ hms2), hmc2]
    rw [count_motors_aux mname jname mtail j hmoc hmos
      (fun k hk => (hgrpC j hj k hk).1)
      (fun k hk => (hgrpC j hj k hk).2) cfgs 0 post (by omega)]
    rw [hpostC j hj]
    rcases Nat.lt_or_ge j cfgs.length with h | h
    · rw [if_pos (show 0 ≤ j ∧ j < 0 + cfgs.length by omega), if_pos h]
    · rw [if_neg (show ¬(0 ≤ j ∧ j < 0 + cfgs.length) by omega),
        if_neg (by omega)]
  · intro j hjN k hkN hne
    exact robotId_pelvis_inj j (by omega) k (by omega) hne

/-! ### A concrete two-robot synthesis run -/

def preW : List Char := "<mujoco>\n  ".data

def attrW : List Char := "0 0 1".data

def abodyW : List Char := "></body>".data

def midW : List Char := "\n<actuator>\n".data

def mnameW : List Char := "abd".data

def jnameW : List Char := "hip".data

def mtailW : List Char := "/>".data

def postW : List Char := "</actuator>\n</mujoco>".data

def cfgsC2 : List RobotSpawnConfig := [⟨0, 0, 0⟩, ⟨1, 2, 3⟩]

def templateW : List Char :=
  preW ++ (namedBody ("pelvis".data) attrW abodyW ++
    (midW ++ (motorEntry mnameW jnameW mtailW ++ postW)))

def outW : List Char :=
  preW ++
    (((cfgsC2.enum.map (fun p =>
      namedBody (robotId p.1 ++ "pelvis".data) (posAttr p.2) abodyW ++
        sepAfterBody)).flatten) ++
      (midW ++
        (((cfgsC2.enum.map (fun p =>
          if p.1 = 0 then motorEntry mnameW jnameW mtailW
          else motorGroupP (robotId p.1) mnameW jnameW mtailW)).flatten) ++
          postW)))

set_option maxRecDepth 8000 in
theorem C2_multi_robot_clone_structure_witness :
    generateMultiRobotXML templateW cfgsC2 = .ok outW ∧
    countOccur (anchorPat 0) outW = 1 ∧
    countOccur (anchorPat 1) outW = 1 ∧
    countOccur (anchorPat 2) outW = 0 ∧
    robotId 0 ++ "pelvis".data ≠ robotId 1 ++ "pelvis".data := by
  have h := C2_multi_robot_clone_structure preW attrW abodyW midW mnameW
    jnameW mtailW postW cfgsC2 51 (by decide) (by decide) (by decide)
    (by decide) (by decide) (by decide) (by decide) (by decide) (by decide)
    (by decide) (by decide) (by decide) (by decide) (by decide) (by decide)
    (by decide) (by decide) (by decide) (by decide) (by decide) (by decide)
  exact ⟨h.1, (h.2.1 0 (by decide)).trans rfl, (h.2.1 1 (by decide)).trans rfl,
    (h.2.1 2 (by decide)).trans rfl, h.2.2 0 (by decide) 1 (by decide)
      (by decide)⟩

end FootballRobot
